import Mathlib

/-!
Verification development for the procedural ambient-sound engine in nature.py.

The Python source synthesizes mono audio buffers from pseudo-random processes:
four signal generators (rain, thunder, birds, campfire), a profile-driven
compositor, and a finishing stage that peak-normalizes and quantizes to
signed 16-bit integers.

Shallow embedding conventions:
- Floating-point sample values are modelled as elements of a linear ordered
  field K (instantiated at the rationals for computation and at the reals when
  facts about the genuine sine and exponential functions are needed).  Decimal
  literals of the source are mapped to the exact rationals they denote.
- The process-wide pseudo-random state (the numpy global generator and the
  random module generator) is made explicit: a record of draw streams with
  per-stream counters, threaded through every operation.  numpy.random.randn
  reads the gaussian stream, numpy.random.poisson reads the poisson stream
  (indexed by the mean, so that the mean used at each call site stays
  observable), random.random reads the uniform stream and random.randint reads
  the integer stream.
- Python exceptions (KeyError on a missing parameter, ValueError from
  random.randint on an empty range) are modelled with an error-carrying
  result; the random state at raise time is preserved, as it is in Python.
- Division of a buffer by a zero maximum produces non-finite values (0/0 is
  NaN, x/0 is an infinity) in numpy; a sample that has become non-finite is
  modelled as Option.none.  All finite samples are some q.
- numpy.float64 NaN cast to int16 is unspecified; it is modelled as none in
  the integer output buffer.
-/

namespace NatureSound

/-- Python exceptions that the embedded code can raise: KeyError from a
missing dictionary key, ValueError from random.randint on an empty range. -/
inductive PyErr : Type where
  | keyError : String → PyErr
  | valueError : PyErr
deriving DecidableEq

/-- Explicit model of the process-wide random state: one stream per kind of
draw, each with a counter giving the next position.  The field g models the
numpy standard-normal stream, pz the numpy poisson stream indexed by the mean
of each call, u the random.random stream and ri the underlying draws used by
random.randint. -/
structure RandState (K : Type) where
  g : ℕ → K
  gi : ℕ
  pz : K → ℕ → ℕ
  pzi : ℕ
  u : ℕ → K
  ui : ℕ
  ri : ℕ → ℕ
  rii : ℕ

/-- State-and-error monad for the embedded Python code: the random state is
threaded through, and is preserved when an exception is raised (as the global
generators are in Python). -/
def M (K : Type) (α : Type) : Type := RandState K → Except PyErr α × RandState K

instance : Monad (M K) where
  pure a := fun s => (Except.ok a, s)
  bind x f := fun s =>
    match x s with
    | (Except.ok a, s') => f a s'
    | (Except.error e, s') => (Except.error e, s')

/-- Raise a Python exception, keeping the random state. -/
def throwM (e : PyErr) : M K α := fun s => (Except.error e, s)

/-- Model of numpy.random.randn(n): n draws from the gaussian stream. -/
def randn (n : ℕ) : M K (List K) := fun s =>
  (Except.ok ((List.range n).map (fun i => s.g (s.gi + i))), { s with gi := s.gi + n })

/-- Model of numpy.random.poisson(mean, n): n draws from the poisson stream
at the given mean. -/
def poissonV (mean : K) (n : ℕ) : M K (List ℕ) := fun s =>
  (Except.ok ((List.range n).map (fun i => s.pz mean (s.pzi + i))), { s with pzi := s.pzi + n })

/-- Model of random.random(): one draw from the uniform stream. -/
def randomU : M K K := fun s => (Except.ok (s.u s.ui), { s with ui := s.ui + 1 })

/-- Model of random.randint(lo, hi): a uniform integer in [lo, hi], raising
ValueError when the range is empty, exactly as the Python function does. -/
def randint (lo hi : ℤ) : M K ℤ := fun s =>
  if hi < lo then (Except.error PyErr.valueError, s)
  else (Except.ok (lo + (s.ri s.rii : ℤ) % (hi - lo + 1)), { s with rii := s.rii + 1 })

section Field

variable {K : Type} [LinearOrderedField K]

/-- Truncation toward zero, the behaviour of the Python int() conversion and
of numpy astype on in-range values. -/
def truncI [FloorRing K] (x : K) : ℤ := if 0 ≤ x then Int.floor x else -Int.floor (-x)

/-- Maximum absolute value of a buffer, the value of np.max(np.abs(xs));
zero on the empty buffer. -/
def maxAbs (l : List K) : K := l.foldr (fun x m => max |x| m) 0

/-- Maximum absolute value of a buffer that may hold non-finite samples:
any non-finite sample poisons the maximum (NaN propagates through np.max). -/
def maxAbsO (l : List (Option K)) : Option K :=
  l.foldr (fun x m =>
    match x, m with
    | some a, some b => some (max |a| b)
    | _, _ => none) (some 0)

/-- Model of np.linspace(start, stop, n) with the default endpoint=True. -/
def linspace (start stop : K) (n : ℕ) : List K :=
  if n = 1 then [start]
  else (List.range n).map (fun i : ℕ => start + (stop - start) * (i : K) / ((n : K) - 1))

/-- Time vector of one render: np.linspace(0, duration, sample_rate * duration). -/
def tvec (duration sample_rate : ℕ) : List K :=
  linspace 0 (duration : K) (sample_rate * duration)

/-- Full discrete convolution, the mode "full" of np.convolve. -/
def convFull (a v : List K) : List K :=
  (List.range (a.length + v.length - 1)).map
    (fun k => ∑ j ∈ Finset.range (k + 1), a.getD j 0 * v.getD (k - j) 0)

/-- Mode "same" of np.convolve: the centered middle max(M,N) entries of the
full convolution, starting at index (min(M,N) - 1) / 2. -/
def convSame (a v : List K) : List K :=
  ((convFull a v).drop ((min a.length v.length - 1) / 2)).take (max a.length v.length)

/-- Final line of each generator: level * xs / np.max(np.abs(xs)).  When the
maximum is zero every sample becomes non-finite (0/0 is NaN), modelled as
none; otherwise each sample is the exact scaled quotient. -/
def normRet (level : K) (xs : List K) : List (Option K) :=
  let m := maxAbs xs
  xs.map (fun x => if m = 0 then none else some (level * x / m))

/-- In-place slice addition buf[start:start+len(b)] += b of numpy. -/
def addSlice (buf : List K) (start : ℕ) (b : List K) : List K :=
  buf.take start
    ++ List.zipWith (fun x y => x + y) b ((buf.drop start).take b.length)
    ++ buf.drop (start + b.length)

/-- Elementwise sum of two sample buffers; a non-finite sample on either side
poisons the sum. -/
def addBuf (a b : List (Option K)) : List (Option K) :=
  List.zipWith (fun x y =>
    match x, y with
    | some p, some q => some (p + q)
    | _, _ => none) a b

/-- The exact rational value of the float64 constant numpy.pi. -/
def np_pi : ℚ := 884279719003555 / 281474976710656

/-- Model of generate_rain: gaussian noise scaled by intensity, convolved in
mode same with a poisson drop pattern of mean 20 + 50 * drop_size, then
normalized to the reference level 0.5. -/
def generate_rain (intensity drop_size : K) (duration : ℕ) (sample_rate : ℕ := 44100) :
    M K (List (Option K)) := do
  let n := sample_rate * duration
  let gs ← randn n
  let rain := gs.map (fun x => x * intensity)
  let drop_pattern ← poissonV (20 + 50 * drop_size) n
  let rain := convSame rain (drop_pattern.map (fun k : ℕ => (k : K)))
  pure (normRet (1/2) rain)

/-- Loop body of generate_thunder: for each boom, draw a start offset with
random.randint(0, n - boomLen), draw the boom noise, shape it with the
linear np.linspace(1, 0, boomLen) envelope and add it into the buffer. -/
def thunderLoop (n boomLen : ℕ) : ℕ → List K → M K (List K)
  | 0, th => pure th
  | b + 1, th => do
      let start ← randint 0 ((n : ℤ) - (boomLen : ℤ))
      let boomG ← randn boomLen
      let boom := List.zipWith (fun x y => x * y) boomG (linspace 1 0 boomLen)
      thunderLoop n boomLen b (addSlice th start.toNat boom)

/-- Model of generate_thunder: int(frequency * duration) booms added into a
zero buffer, then normalized to the reference level 0.7. -/
def generate_thunder [FloorRing K] (frequency boom_duration : K) (duration : ℕ)
    (sample_rate : ℕ := 44100) : M K (List (Option K)) := do
  let n := sample_rate * duration
  let num_booms := (truncI (frequency * (duration : K))).toNat
  let boomLen := (truncI (boom_duration * (sample_rate : K))).toNat
  let th ← thunderLoop n boomLen num_booms (List.replicate n 0)
  pure (normRet (7/10) th)

/-- Loop body of generate_birds: for each call, draw the pitch and the call
duration, then add the full-length chirp
sin(2 pi freq t) * exp(-5 t / duration_call) scaled by 0.2 into the
accumulator.  The sine and exponential of the source are abstracted as the
function parameters sinK and expK so that the embedding stays polymorphic in
the sample field; at K = real they are Real.sin and Real.exp. -/
def birdsLoop (sinK expK : K → K) (pitch_variance : K) (t : List K) :
    ℕ → List K → M K (List K)
  | 0, acc => pure acc
  | c + 1, acc => do
      let u1 ← randomU
      let freq := 1000 + 2000 * u1 * pitch_variance
      let u2 ← randomU
      let duration_call := 1/10 + 3/10 * u2
      let bird := t.map (fun tx =>
        sinK (2 * ((np_pi : ℚ) : K) * freq * tx) * expK (-5 * tx / duration_call))
      birdsLoop sinK expK pitch_variance t c
        (List.zipWith (fun a b => a + b) acc (bird.map (fun x => x * (1/5))))

/-- Model of generate_birds: int(density * duration * 10) chirps summed into a
zero buffer, then normalized by the maximum absolute value (level 1). -/
def generate_birds [FloorRing K] (sinK expK : K → K) (density pitch_variance : K)
    (duration : ℕ) (sample_rate : ℕ := 44100) : M K (List (Option K)) := do
  let t : List K := tvec duration sample_rate
  let num_calls := (truncI (density * (duration : K) * 10)).toNat
  let birds ← birdsLoop sinK expK pitch_variance t num_calls
    (List.replicate (sample_rate * duration) 0)
  pure (normRet 1 birds)

/-- Model of generate_fire: gaussian noise scaled by crackle_intensity,
convolved in mode same with a poisson ember pattern of mean 10 + 20 * embers,
then normalized to the reference level 0.6. -/
def generate_fire (crackle_intensity embers : K) (duration : ℕ)
    (sample_rate : ℕ := 44100) : M K (List (Option K)) := do
  let n := sample_rate * duration
  let gs ← randn n
  let crackle := gs.map (fun x => x * crackle_intensity)
  let ember_pattern ← poissonV (10 + 20 * embers) n
  let fire := convSame crackle (ember_pattern.map (fun k : ℕ => (k : K)))
  pure (normRet (3/5) fire)

/-- Generic shape shared by the rain and fire generators, written from the
specification sentence that calls them structurally identical: gaussian noise
scaled by an amplitude parameter, convolved in mode same with a poisson
pattern of mean base + slope * sizeParam, normalized to the given level.
This definition exists only to be compared with the two source functions. -/
def poissonConvGenerator (level base slope : K) (amp sizeParam : K) (duration : ℕ)
    (sample_rate : ℕ := 44100) : M K (List (Option K)) := do
  let n := sample_rate * duration
  let gs ← randn n
  let noise := gs.map (fun x => x * amp)
  let pattern ← poissonV (base + slope * sizeParam) n
  let out := convSame noise (pattern.map (fun k : ℕ => (k : K)))
  pure (normRet level out)

/-- Profile record: the components dictionary, a mapping from component name
to a parameter dictionary, both modelled as association lists with first-match
lookup (the cosmetic bg_color field is outside the core). -/
structure Profile (K : Type) where
  components : List (String × List (String × K))

/-- Dictionary access params[key] of the source: the value when present,
KeyError when absent. -/
def getParam (ps : List (String × K)) (key : String) : M K K :=
  match ps.lookup key with
  | some v => pure v
  | none => throwM (PyErr.keyError key)

/-- One routing block of generate_environment, the common shape of the four
source if-blocks: when the component key is present in the profile (lk is the
lookup result), read the two required parameters in source order, run the
generator, and add its output into the accumulator; when absent, leave the
accumulator unchanged. -/
def componentStep [FloorRing K] (lk : Option (List (String × K)))
    (key1 key2 : String) (gen : K → K → M K (List (Option K)))
    (acc : List (Option K)) : M K (List (Option K)) :=
  match lk with
  | some params => do
      let x ← getParam params key1
      let y ← getParam params key2
      let r ← gen x y
      pure (addBuf acc r)
  | none => pure acc

/-- Routing and summing part of generate_environment: allocate the zero
accumulator of length 44100 * duration, then for each of the four recognized
component keys in source order (rain, thunder, birds, campfire), read the
required parameters and add the matching generator output into the
accumulator.  Unrecognized keys are never consulted. -/
def buildComposite [FloorRing K] (sinK expK : K → K) (duration : ℕ) (p : Profile K) :
    M K (List (Option K)) := do
  let n := 44100 * duration
  let audio0 : List (Option K) := List.replicate n (some 0)
  let a1 ← componentStep (p.components.lookup "rain") "intensity" "drop_size"
    (fun intensity drop_size => generate_rain intensity drop_size duration) audio0
  let a2 ← componentStep (p.components.lookup "thunder") "frequency" "boom_duration"
    (fun frequency boom_duration => generate_thunder frequency boom_duration duration) a1
  let a3 ← componentStep (p.components.lookup "birds") "density" "pitch_variance"
    (fun density pitch_variance =>
      generate_birds sinK expK density pitch_variance duration) a2
  let a4 ← componentStep (p.components.lookup "campfire") "crackle_intensity" "smoke"
    (fun crackle_intensity smoke => generate_fire crackle_intensity smoke duration) a3
  pure a4

/-- Finishing stage of generate_environment: divide the composite by its
maximum absolute value and quantize with astype(np.int16) after scaling by
32767.  A zero maximum makes every quotient non-finite (0/0), and non-finite
samples stay non-finite through the integer cast. -/
def finishAudio [FloorRing K] (audio : List (Option K)) : List (Option ℤ) :=
  match maxAbsO audio with
  | none => audio.map (fun _ => none)
  | some m =>
      audio.map (fun x =>
        match x with
        | some v => if m = 0 then none else some (truncI (v / m * 32767))
        | none => none)

/-- Model of generate_environment: route and sum the components, then
normalize and quantize.  The source performs the two stages in one function
body; they are factored here so the intermediate composite can be named. -/
def generate_environment [FloorRing K] (sinK expK : K → K) (duration : ℕ)
    (p : Profile K) : M K (List (Option ℤ)) := do
  let audio ← buildComposite sinK expK duration p
  pure (finishAudio audio)

/-- Closed form of the pre-normalization birds signal: the pointwise sum of
the full-length chirp terms of the calls, the call starting at stream
position u0 reading its pitch draw at u0 and its call-duration draw at u0 + 1.
Every chirp is evaluated on the whole time vector — there is no time offset
anywhere. -/
def birdsSignal (sinK expK : K → K) (pitch_variance : K) (t : List K)
    (u : ℕ → K) : ℕ → ℕ → List K
  | _, 0 => t.map (fun _ => 0)
  | u0, c + 1 =>
      List.zipWith (fun a b => a + b)
        (t.map (fun tx =>
          sinK (2 * ((np_pi : ℚ) : K) * (1000 + 2000 * u u0 * pitch_variance) * tx)
            * expK (-5 * tx / (1/10 + 3/10 * u (u0 + 1))) * (1/5)))
        (birdsSignal sinK expK pitch_variance t u (u0 + 2) c)

/-- Profile holding a complete rain component followed by a campfire
component that lacks the required key smoke. -/
def rainCampfireProfile : Profile K :=
  ⟨[("rain", [("intensity", 1), ("drop_size", 0)]),
    ("campfire", [("crackle_intensity", 1)])]⟩

end Field

/-- Random state with all counters at zero and the given draw streams. -/
def mkState {K : Type} (g : ℕ → K) (pz : K → ℕ → ℕ) (u : ℕ → K) (ri : ℕ → ℕ) :
    RandState K :=
  ⟨g, 0, pz, 0, u, 0, ri, 0⟩

/-- Rational random state whose single nonzero gaussian draw is -1 at
position zero, with a constant all-ones poisson stream. -/
def deltaState : RandState ℚ :=
  mkState (fun i => if i = 0 then -1 else 0) (fun _ _ => 1) (fun _ => 0) (fun _ => 0)

/-- Rational random state with constant gaussian draws 1 and constant
poisson draws 1. -/
def onesState : RandState ℚ :=
  mkState (fun _ => 1) (fun _ _ => 1) (fun _ => 0) (fun _ => 0)

/-- Real-valued random state with zero gaussian and uniform streams. -/
noncomputable def realState : RandState ℝ :=
  mkState (fun _ => 0) (fun _ _ => 1) (fun _ => 0) (fun _ => 0)

/-- Profile holding only a complete rain component. -/
def rainOnlyProfile : Profile ℚ :=
  ⟨[("rain", [("intensity", 1), ("drop_size", 0)])]⟩

/-- Composite float buffer produced by rendering rainOnlyProfile for one
second from deltaState: the negated poisson pattern shifted by the mode-same
offset, scaled to the rain reference level. -/
def zsRainDelta : List ℚ :=
  List.replicate 22051 (-(1/2)) ++ List.replicate 22049 0

/-- Integer buffer produced by finishing zsRainDelta: the negative peak
quantizes to -32767 and no sample quantizes to +32767. -/
def outRainDelta : List (Option ℤ) :=
  List.replicate 22051 (some (-32767)) ++ List.replicate 22049 (some 0)

/-- Formalization of the burst-placement locality asserted by the claim for a
single chirp: some window of length at most 0.4 seconds (the largest possible
call duration 0.1 + 0.3 * u) contains every time sample at which the returned
buffer is nonzero. -/
def birdsLocalSupport (t : List ℝ) (out : List (Option ℝ)) : Prop :=
  ∃ t0 : ℝ, ∀ i, i < out.length → out.getD i none ≠ some 0 →
    t0 ≤ t.getD i 0 ∧ t.getD i 0 ≤ t0 + 2/5

section RunLemmas

variable {K : Type} {α β : Type}

theorem run_pure (a : α) (s : RandState K) : (pure a : M K α) s = (Except.ok a, s) := rfl

theorem run_bind (x : M K α) (f : α → M K β) (s : RandState K) :
    (x >>= f) s =
      match x s with
      | (Except.ok a, s') => f a s'
      | (Except.error e, s') => (Except.error e, s') := rfl

theorem run_bind_ok {x : M K α} {s s' : RandState K} {a : α}
    (h : x s = (Except.ok a, s')) (f : α → M K β) : (x >>= f) s = f a s' := by
  rw [run_bind, h]

theorem run_bind_err {x : M K α} {s s' : RandState K} {e : PyErr}
    (h : x s = (Except.error e, s')) (f : α → M K β) :
    (x >>= f) s = (Except.error e, s') := by
  rw [run_bind, h]

theorem bind_ok_decomp {x : M K α} {f : α → M K β} {s s2 : RandState K} {b : β}
    (h : (x >>= f) s = (Except.ok b, s2)) :
    ∃ a s1, x s = (Except.ok a, s1) ∧ f a s1 = (Except.ok b, s2) := by
  rcases hx : x s with ⟨ea, s1⟩
  cases ea with
  | ok a =>
      refine ⟨a, s1, rfl, ?_⟩
      rw [run_bind_ok hx] at h
      exact h
  | error e =>
      rw [run_bind_err hx] at h
      cases h

theorem bind_pure_ok {x : M K α} {f : α → β} {s : RandState K} {b : β}
    (h : ((x >>= fun a => pure (f a)) s).1 = Except.ok b) :
    ∃ a, b = f a := by
  rcases hx : x s with ⟨ea, s1⟩
  cases ea with
  | ok a =>
      rw [run_bind_ok hx] at h
      exact ⟨a, (Except.ok.inj h).symm⟩
  | error e =>
      rw [run_bind_err hx] at h
      cases h

end RunLemmas

section BufferLemmas

variable {K : Type} [LinearOrderedField K]

theorem maxAbs_nil : maxAbs ([] : List K) = 0 := rfl

theorem maxAbs_cons (x : K) (l : List K) : maxAbs (x :: l) = max |x| (maxAbs l) := rfl

theorem maxAbs_nonneg (l : List K) : 0 ≤ maxAbs l := by
  induction l with
  | nil => exact le_refl 0
  | cons x l ih => exact le_trans ih (le_max_right _ _)

theorem le_maxAbs {x : K} {l : List K} (h : x ∈ l) : |x| ≤ maxAbs l := by
  induction l with
  | nil => cases h
  | cons y l ih =>
      rcases List.mem_cons.mp h with h' | h'
      · subst h'; exact le_max_left _ _
      · exact le_trans (ih h') (le_max_right _ _)

theorem maxAbs_append (l₁ l₂ : List K) :
    maxAbs (l₁ ++ l₂) = max (maxAbs l₁) (maxAbs l₂) := by
  induction l₁ with
  | nil =>
      rw [List.nil_append]
      exact (max_eq_right (maxAbs_nonneg l₂)).symm
  | cons x l ih => simp [maxAbs_cons, List.cons_append, ih, max_assoc]

theorem maxAbs_replicate (n : ℕ) (x : K) (hn : 1 ≤ n) :
    maxAbs (List.replicate n x) = |x| := by
  induction n with
  | zero => cases hn
  | succ m ih =>
      cases m with
      | zero =>
          rw [List.replicate_one, maxAbs_cons, maxAbs_nil]
          exact max_eq_left (abs_nonneg x)
      | succ k =>
          rw [List.replicate_succ, maxAbs_cons, ih (Nat.succ_le_succ (Nat.zero_le k))]
          exact max_self _

theorem maxAbs_replicate_zero (n : ℕ) : maxAbs (List.replicate n (0 : K)) = 0 := by
  induction n with
  | zero => rfl
  | succ m ih => rw [List.replicate_succ, maxAbs_cons, ih]; simp

theorem maxAbs_eq_zero_iff {l : List K} : maxAbs l = 0 ↔ ∀ x ∈ l, x = 0 := by
  induction l with
  | nil => simp [maxAbs]
  | cons x l ih =>
      rw [maxAbs_cons]
      constructor
      · intro h
        have hx : |x| ≤ 0 := h ▸ le_max_left _ _
        have hl : maxAbs l ≤ 0 := h ▸ le_max_right _ _
        have hx0 : x = 0 := abs_nonpos_iff.mp hx
        have hl0 : ∀ y ∈ l, y = 0 := ih.mp (le_antisymm hl (maxAbs_nonneg l))
        intro y hy
        rcases List.mem_cons.mp hy with h' | h'
        · exact h' ▸ hx0
        · exact hl0 y h'
      · intro h
        have hx : x = 0 := h x (List.mem_cons_self x l)
        have hl : maxAbs l = 0 := ih.mpr (fun y hy => h y (List.mem_cons_of_mem _ hy))
        rw [hx, hl]; simp

theorem maxAbs_attained {l : List K} (h : maxAbs l ≠ 0) : ∃ x ∈ l, |x| = maxAbs l := by
  induction l with
  | nil => exact absurd rfl h
  | cons x l ih =>
      rw [maxAbs_cons] at h ⊢
      rcases le_total (maxAbs l) |x| with hle | hle
      · exact ⟨x, List.mem_cons_self x l, (max_eq_left hle).symm⟩
      · have h0 : maxAbs l ≠ 0 := by
          intro h0
          apply h
          rw [max_eq_right hle, h0]
        rcases ih h0 with ⟨y, hy, hy'⟩
        exact ⟨y, List.mem_cons_of_mem _ hy, by rw [hy', max_eq_right hle]⟩

theorem maxAbs_map_mul_right (l : List K) (c : K) :
    maxAbs (l.map (fun x => x * c)) = maxAbs l * |c| := by
  induction l with
  | nil => simp [maxAbs]
  | cons x l ih =>
      rw [List.map_cons, maxAbs_cons, maxAbs_cons, ih, abs_mul,
        max_mul_of_nonneg _ _ (abs_nonneg c)]

theorem maxAbsO_cons (x : Option K) (t : List (Option K)) :
    maxAbsO (x :: t) =
      match x, maxAbsO t with
      | some a, some b => some (max |a| b)
      | _, _ => none := rfl

theorem maxAbsO_map_some (l : List K) : maxAbsO (l.map some) = some (maxAbs l) := by
  induction l with
  | nil => rfl
  | cons x l ih => rw [List.map_cons, maxAbsO_cons, ih, maxAbs_cons]

theorem normRet_of_maxAbs_zero (lvl : K) {xs : List K} (h : maxAbs xs = 0) :
    normRet lvl xs = List.replicate xs.length none := by
  have hf : (fun x : K => if maxAbs xs = 0 then (none : Option K)
      else some (lvl * x / maxAbs xs)) = fun _ => none := funext fun x => if_pos h
  show xs.map (fun x => if maxAbs xs = 0 then none else some (lvl * x / maxAbs xs))
      = List.replicate xs.length none
  rw [hf]
  exact List.map_const' xs none

theorem normRet_of_maxAbs_ne_zero (lvl : K) {xs : List K} (h : maxAbs xs ≠ 0) :
    normRet lvl xs = xs.map (fun x => some (lvl * x / maxAbs xs)) := by
  have hf : (fun x : K => if maxAbs xs = 0 then (none : Option K)
      else some (lvl * x / maxAbs xs)) = fun x => some (lvl * x / maxAbs xs) :=
    funext fun x => if_neg h
  show xs.map (fun x => if maxAbs xs = 0 then none else some (lvl * x / maxAbs xs)) = _
  rw [hf]

theorem normRet_allSome {lvl : K} {xs zs : List K} (hz : normRet lvl xs = zs.map some)
    (hne : zs ≠ []) (hl : 0 < lvl) : maxAbs zs = lvl := by
  rcases eq_or_ne (maxAbs xs) 0 with h0 | h0
  · rw [normRet_of_maxAbs_zero lvl h0] at hz
    cases zs with
    | nil => exact absurd rfl hne
    | cons z zt =>
        cases xs with
        | nil => simp at hz
        | cons x xt => simp [List.replicate_succ] at hz
  · rw [normRet_of_maxAbs_ne_zero lvl h0] at hz
    have hm : 0 < maxAbs xs := lt_of_le_of_ne (maxAbs_nonneg xs) (Ne.symm h0)
    have hmap : zs.map some = (xs.map (fun x => lvl * x / maxAbs xs)).map some := by
      rw [List.map_map]
      exact hz.symm
    have hzz : zs = xs.map (fun x => lvl * x / maxAbs xs) :=
      List.map_injective_iff.mpr (Option.some_injective K) hmap
    have hf : (fun x : K => lvl * x / maxAbs xs) = fun x => x * (lvl / maxAbs xs) :=
      funext fun x => by ring
    rw [hzz, hf, maxAbs_map_mul_right, abs_of_pos (div_pos hl hm), mul_comm,
      div_mul_cancel₀ _ h0]

end BufferLemmas

section FloorLemmas

variable {K : Type} [LinearOrderedField K] [FloorRing K]

theorem truncI_intCast (z : ℤ) : truncI ((z : K)) = z := by
  unfold truncI
  by_cases h : 0 ≤ ((z : K))
  · rw [if_pos h, Int.floor_intCast]
  · rw [if_neg h, ← Int.cast_neg, Int.floor_intCast, neg_neg]

theorem finishAudio_replicate_zero (n : ℕ) :
    finishAudio (List.replicate n (some (0 : K))) = List.replicate n none := by
  have h1 : maxAbsO (List.replicate n (some (0 : K))) = some 0 := by
    have h := maxAbsO_map_some (List.replicate n (0 : K))
    rw [List.map_replicate] at h
    rw [h, maxAbs_replicate_zero]
  unfold finishAudio
  rw [h1, List.map_replicate]
  simp

theorem finishAudio_map_some {zs : List K} (h : maxAbs zs ≠ 0) :
    finishAudio (zs.map some)
      = (zs.map (fun v => truncI (v / maxAbs zs * 32767))).map some := by
  have h1 : maxAbsO (zs.map some) = some (maxAbs zs) := maxAbsO_map_some zs
  unfold finishAudio
  rw [h1]
  show (zs.map some).map (fun x =>
      match x with
      | some v => if maxAbs zs = 0 then none else some (truncI (v / maxAbs zs * 32767))
      | none => none) = _
  rw [List.map_map, List.map_map]
  refine List.map_congr_left (fun v _ => ?_)
  simp [Function.comp, if_neg h]

end FloorLemmas

section LengthLemmas

variable {K : Type} [LinearOrderedField K]

theorem linspace_length (a b : K) (n : ℕ) : (linspace a b n).length = n := by
  unfold linspace
  split
  · next h => simp [h]
  · next h => rw [List.length_map, List.length_range]

theorem tvec_length (d sr : ℕ) : (tvec d sr : List K).length = sr * d :=
  linspace_length 0 (d : K) (sr * d)

theorem convFull_length (a v : List K) :
    (convFull a v).length = a.length + v.length - 1 := by
  simp [convFull]

theorem convSame_length {a v : List K} {n : ℕ} (ha : a.length = n) (hv : v.length = n) :
    (convSame a v).length = n := by
  simp only [convSame, List.length_take, List.length_drop, convFull_length, ha, hv,
    min_self, max_self]
  omega

theorem normRet_length (lvl : K) (xs : List K) : (normRet lvl xs).length = xs.length := by
  simp [normRet]

theorem addBuf_length (a b : List (Option K)) :
    (addBuf a b).length = min a.length b.length := by
  simp [addBuf]

theorem addSlice_length {buf b : List K} {st : ℕ} (h : st + b.length ≤ buf.length) :
    (addSlice buf st b).length = buf.length := by
  simp only [addSlice, List.length_append, List.length_take, List.length_drop,
    List.length_zipWith]
  omega

end LengthLemmas

section GeneratorRunLemmas

variable {K : Type} [LinearOrderedField K]

theorem generate_rain_run (i ds : K) (d sr : ℕ) (s : RandState K) :
    generate_rain i ds d sr s
      = (Except.ok (normRet (1/2) (convSame
            (((List.range (sr * d)).map (fun j => s.g (s.gi + j))).map (fun x => x * i))
            (((List.range (sr * d)).map (fun j => s.pz (20 + 50 * ds) (s.pzi + j))).map
              (fun k : ℕ => (k : K))))),
         { s with gi := s.gi + sr * d, pzi := s.pzi + sr * d }) := rfl

theorem generate_fire_run (ci em : K) (d sr : ℕ) (s : RandState K) :
    generate_fire ci em d sr s
      = (Except.ok (normRet (3/5) (convSame
            (((List.range (sr * d)).map (fun j => s.g (s.gi + j))).map (fun x => x * ci))
            (((List.range (sr * d)).map (fun j => s.pz (10 + 20 * em) (s.pzi + j))).map
              (fun k : ℕ => (k : K))))),
         { s with gi := s.gi + sr * d, pzi := s.pzi + sr * d }) := rfl

theorem zipWith_add_map_zero (acc t : List K) (h : acc.length = t.length) :
    List.zipWith (fun a b => a + b) acc (t.map (fun _ => (0 : K))) = acc := by
  induction acc generalizing t with
  | nil => rfl
  | cons x xs ih =>
      cases t with
      | nil => cases h
      | cons y ys =>
          simp only [List.map_cons, List.zipWith_cons_cons, add_zero]
          rw [ih ys (by simpa using h)]

theorem zipWith_add_replicate_zero {l : List K} {n : ℕ} (h : l.length = n) :
    List.zipWith (fun a b => a + b) (List.replicate n (0 : K)) l = l := by
  induction l generalizing n with
  | nil => cases h; rfl
  | cons x xs ih =>
      cases n with
      | zero => cases h
      | succ m =>
          simp only [List.replicate_succ, List.zipWith_cons_cons, zero_add]
          rw [ih (by simpa using h)]

theorem zipWith_add_map_map (acc : List K) (t : List K) (f g : K → K) :
    List.zipWith (fun a b => a + b)
        (List.zipWith (fun a b => a + b) acc (t.map f)) (t.map g)
      = List.zipWith (fun a b => a + b) acc (t.map (fun x => f x + g x)) := by
  induction acc generalizing t with
  | nil => rfl
  | cons x xs ih =>
      cases t with
      | nil => rfl
      | cons y ys =>
          simp only [List.map_cons, List.zipWith_cons_cons, add_assoc]
          rw [ih ys]

theorem thunderLoop_zero_run (n bl : ℕ) (th : List K) (s : RandState K) :
    thunderLoop n bl 0 th s = (Except.ok th, s) := rfl

theorem thunderLoop_succ_run (n bl b : ℕ) (th : List K) (s : RandState K)
    (h : ¬ ((n : ℤ) - (bl : ℤ) < 0)) :
    thunderLoop n bl (b + 1) th s
      = thunderLoop n bl b
          (addSlice th (0 + (s.ri s.rii : ℤ) % ((n : ℤ) - (bl : ℤ) - 0 + 1)).toNat
            (List.zipWith (fun x y => x * y)
              ((List.range bl).map (fun i => s.g (s.gi + i))) (linspace 1 0 bl)))
          { s with rii := s.rii + 1, gi := s.gi + bl } := by
  have hri : randint 0 ((n : ℤ) - (bl : ℤ)) s
      = (Except.ok (0 + (s.ri s.rii : ℤ) % ((n : ℤ) - (bl : ℤ) - 0 + 1)),
         { s with rii := s.rii + 1 }) := by
    unfold randint
    rw [if_neg (by omega)]
  show (randint 0 ((n : ℤ) - (bl : ℤ)) >>= fun start =>
      randn bl >>= fun boomG =>
        thunderLoop n bl b
          (addSlice th start.toNat
            (List.zipWith (fun x y => x * y) boomG (linspace 1 0 bl)))) s = _
  rw [run_bind_ok hri]
  rfl

theorem thunderLoop_err_run (n bl b : ℕ) (th : List K) (s : RandState K)
    (h : (n : ℤ) - (bl : ℤ) < 0) :
    thunderLoop n bl (b + 1) th s = (Except.error PyErr.valueError, s) := by
  have hri : randint 0 ((n : ℤ) - (bl : ℤ)) s = (Except.error PyErr.valueError, s) := by
    unfold randint
    rw [if_pos (by omega)]
  show (randint 0 ((n : ℤ) - (bl : ℤ)) >>= fun start =>
      randn bl >>= fun boomG =>
        thunderLoop n bl b
          (addSlice th start.toNat
            (List.zipWith (fun x y => x * y) boomG (linspace 1 0 bl)))) s = _
  rw [run_bind_err hri]

theorem thunderLoop_ok_run (n bl : ℕ) (hbl : bl ≤ n) :
    ∀ (b : ℕ) (th : List K) (s : RandState K), th.length = n →
      ∃ th' s', thunderLoop n bl b th s = (Except.ok th', s') ∧ th'.length = n := by
  intro b
  induction b with
  | zero =>
      intro th s hl
      exact ⟨th, s, thunderLoop_zero_run n bl th s, hl⟩
  | succ b ih =>
      intro th s hl
      have hnn : ¬ ((n : ℤ) - (bl : ℤ) < 0) := by omega
      rw [thunderLoop_succ_run n bl b th s hnn]
      apply ih
      have hb : (List.zipWith (fun x y => x * y)
          ((List.range bl).map (fun i => s.g (s.gi + i))) (linspace 1 0 bl)).length = bl := by
        rw [List.length_zipWith, List.length_map, List.length_range, linspace_length,
          min_self]
      have hmod : 0 ≤ (s.ri s.rii : ℤ) % ((n : ℤ) - (bl : ℤ) - 0 + 1) :=
        Int.emod_nonneg _ (by omega)
      have hmod2 : (s.ri s.rii : ℤ) % ((n : ℤ) - (bl : ℤ) - 0 + 1) < (n : ℤ) - (bl : ℤ) - 0 + 1 :=
        Int.emod_lt_of_pos _ (by omega)
      have hbound : (0 + (s.ri s.rii : ℤ) % ((n : ℤ) - (bl : ℤ) - 0 + 1)).toNat
          + (List.zipWith (fun x y => x * y)
              ((List.range bl).map (fun i => s.g (s.gi + i))) (linspace 1 0 bl)).length
          ≤ th.length := by
        rw [hb, hl]
        omega
      rw [addSlice_length hbound]
      exact hl

theorem thunderLoop_length (n bl : ℕ) :
    ∀ (b : ℕ) (th : List K) (s : RandState K) (th' : List K) (s' : RandState K),
      thunderLoop n bl b th s = (Except.ok th', s') → th.length = n → th'.length = n := by
  intro b
  induction b with
  | zero =>
      intro th s th' s' h hl
      rw [thunderLoop_zero_run] at h
      have h1 : th = th' := Except.ok.inj (congrArg Prod.fst h)
      exact h1 ▸ hl
  | succ b ih =>
      intro th s th' s' h hl
      by_cases hr : (n : ℤ) - (bl : ℤ) < 0
      · rw [thunderLoop_err_run n bl b th s hr] at h
        cases congrArg Prod.fst h
      · rw [thunderLoop_succ_run n bl b th s hr] at h
        refine ih _ _ _ _ h ?_
        have hb : (List.zipWith (fun x y => x * y)
            ((List.range bl).map (fun i => s.g (s.gi + i))) (linspace 1 0 bl)).length = bl := by
          rw [List.length_zipWith, List.length_map, List.length_range, linspace_length,
            min_self]
        have hmod : 0 ≤ (s.ri s.rii : ℤ) % ((n : ℤ) - (bl : ℤ) - 0 + 1) :=
          Int.emod_nonneg _ (by omega)
        have hmod2 : (s.ri s.rii : ℤ) % ((n : ℤ) - (bl : ℤ) - 0 + 1)
            < (n : ℤ) - (bl : ℤ) - 0 + 1 :=
          Int.emod_lt_of_pos _ (by omega)
        have hbound : (0 + (s.ri s.rii : ℤ) % ((n : ℤ) - (bl : ℤ) - 0 + 1)).toNat
            + (List.zipWith (fun x y => x * y)
                ((List.range bl).map (fun i => s.g (s.gi + i))) (linspace 1 0 bl)).length
            ≤ th.length := by
          rw [hb, hl]
          omega
        rw [addSlice_length hbound]
        exact hl

theorem birdsSignal_length (sinK expK : K → K) (pv : K) (t : List K) (u : ℕ → K) :
    ∀ (c u0 : ℕ), (birdsSignal sinK expK pv t u u0 c).length = t.length := by
  intro c
  induction c with
  | zero => intro u0; simp [birdsSignal]
  | succ c ih =>
      intro u0
      show (List.zipWith _ _ _).length = t.length
      rw [List.length_zipWith, List.length_map, ih (u0 + 2), min_self]

theorem zipWith_add_assoc (a b c : List K) :
    List.zipWith (fun x y => x + y) (List.zipWith (fun x y => x + y) a b) c
      = List.zipWith (fun x y => x + y) a (List.zipWith (fun x y => x + y) b c) := by
  induction a generalizing b c with
  | nil => rfl
  | cons x xs ih =>
      cases b with
      | nil => rfl
      | cons y ys =>
          cases c with
          | nil => rfl
          | cons z zs =>
              simp only [List.zipWith_cons_cons, add_assoc]
              rw [ih ys zs]

theorem birdsLoop_succ_run (sinK expK : K → K) (pv : K) (t : List K) (c : ℕ)
    (acc : List K) (s : RandState K) :
    birdsLoop sinK expK pv t (c + 1) acc s
      = birdsLoop sinK expK pv t c
          (List.zipWith (fun a b => a + b) acc
            ((t.map (fun tx =>
                sinK (2 * ((np_pi : ℚ) : K) * (1000 + 2000 * s.u s.ui * pv) * tx)
                  * expK (-5 * tx / (1/10 + 3/10 * s.u (s.ui + 1))))).map
              (fun x => x * (1/5))))
          { s with ui := s.ui + 1 + 1 } := rfl

theorem birdsLoop_run (sinK expK : K → K) (pv : K) (t : List K) :
    ∀ (c : ℕ) (acc : List K) (s : RandState K), acc.length = t.length →
      birdsLoop sinK expK pv t c acc s
        = (Except.ok (List.zipWith (fun a b => a + b) acc
            (birdsSignal sinK expK pv t s.u s.ui c)),
           { s with ui := s.ui + 2 * c }) := by
  intro c
  induction c with
  | zero =>
      intro acc s hl
      show (Except.ok acc, s) = _
      rw [show birdsSignal sinK expK pv t s.u s.ui 0 = t.map (fun _ => (0 : K)) from rfl,
        zipWith_add_map_zero acc t hl]
      rfl
  | succ c ih =>
      intro acc s hl
      rw [birdsLoop_succ_run]
      have hacc : (List.zipWith (fun a b => a + b) acc
          ((t.map (fun tx =>
              sinK (2 * ((np_pi : ℚ) : K) * (1000 + 2000 * s.u s.ui * pv) * tx)
                * expK (-5 * tx / (1/10 + 3/10 * s.u (s.ui + 1))))).map
            (fun x => x * (1/5)))).length = t.length := by
        rw [List.length_zipWith, List.length_map, List.length_map, hl, min_self]
      rw [ih _ _ hacc]
      have hui : s.ui + 1 + 1 + 2 * c = s.ui + 2 * (c + 1) := by ring
      have hsig : birdsSignal sinK expK pv t s.u s.ui (c + 1)
          = List.zipWith (fun a b => a + b)
              ((t.map (fun tx =>
                  sinK (2 * ((np_pi : ℚ) : K) * (1000 + 2000 * s.u s.ui * pv) * tx)
                    * expK (-5 * tx / (1/10 + 3/10 * s.u (s.ui + 1))))).map
                (fun x => x * (1/5)))
              (birdsSignal sinK expK pv t s.u (s.ui + 1 + 1) c) := by
        show birdsSignal sinK expK pv t s.u s.ui (c + 1) = _
        rw [List.map_map]
        rfl
      rw [hsig, zipWith_add_assoc, hui]

theorem generate_birds_run [FloorRing K] (sinK expK : K → K) (density pv : K)
    (d sr : ℕ) (s : RandState K) :
    generate_birds sinK expK density pv d sr s
      = (Except.ok (normRet 1 (birdsSignal sinK expK pv (tvec d sr) s.u s.ui
            ((truncI (density * (d : K) * 10)).toNat))),
         { s with ui := s.ui + 2 * (truncI (density * (d : K) * 10)).toNat }) := by
  have hrep : (List.replicate (sr * d) (0 : K)).length = (tvec d sr : List K).length := by
    rw [List.length_replicate, tvec_length]
  show (birdsLoop sinK expK pv (tvec d sr) ((truncI (density * (d : K) * 10)).toNat)
      (List.replicate (sr * d) 0) >>= fun birds => pure (normRet 1 birds)) s = _
  rw [run_bind_ok (birdsLoop_run sinK expK pv (tvec d sr) _ _ s hrep)]
  rw [run_pure]
  have hsig : (birdsSignal sinK expK pv (tvec d sr : List K) s.u s.ui
      ((truncI (density * (d : K) * 10)).toNat)).length = sr * d := by
    rw [birdsSignal_length, tvec_length]
  rw [zipWith_add_replicate_zero hsig]

theorem generate_thunder_zero_booms [FloorRing K] {frequency boom_duration : K}
    {d sr : ℕ} (s : RandState K) (h : (truncI (frequency * (d : K))).toNat = 0) :
    generate_thunder frequency boom_duration d sr s
      = (Except.ok (List.replicate (sr * d) none), s) := by
  show (thunderLoop (sr * d) ((truncI (boom_duration * (sr : K))).toNat)
      ((truncI (frequency * (d : K))).toNat) (List.replicate (sr * d) 0) >>= fun th =>
        pure (normRet (7/10) th)) s = _
  rw [h, run_bind_ok (thunderLoop_zero_run _ _ _ _), run_pure,
    normRet_of_maxAbs_zero (7/10) (maxAbs_replicate_zero (sr * d)),
    List.length_replicate]

theorem generate_thunder_ok_shape [FloorRing K] {f bd : K} {d sr : ℕ}
    {s : RandState K} {out : List (Option K)}
    (h : (generate_thunder f bd d sr s).1 = Except.ok out) :
    ∃ sig : List K, out = normRet (7/10) sig := by
  have h' : ((thunderLoop (sr * d) ((truncI (bd * (sr : K))).toNat)
      ((truncI (f * (d : K))).toNat) (List.replicate (sr * d) 0) >>= fun th =>
        pure (normRet (7/10) th)) s).1 = Except.ok out := h
  exact bind_pure_ok h'

theorem generate_environment_ok {K : Type} [LinearOrderedField K] [FloorRing K]
    {sinK expK : K → K} {d : ℕ} {p : Profile K} {s s1 : RandState K}
    {comp : List (Option K)}
    (h : buildComposite sinK expK d p s = (Except.ok comp, s1)) :
    generate_environment sinK expK d p s = (Except.ok (finishAudio comp), s1) := by
  show (buildComposite sinK expK d p >>= fun audio => pure (finishAudio audio)) s = _
  rw [run_bind_ok h, run_pure]

theorem generate_environment_err {K : Type} [LinearOrderedField K] [FloorRing K]
    {sinK expK : K → K} {d : ℕ} {p : Profile K} {s s1 : RandState K} {e : PyErr}
    (h : buildComposite sinK expK d p s = (Except.error e, s1)) :
    generate_environment sinK expK d p s = (Except.error e, s1) := by
  show (buildComposite sinK expK d p >>= fun audio => pure (finishAudio audio)) s = _
  rw [run_bind_err h]

theorem buildComposite_empty [FloorRing K] (sinK expK : K → K) (d : ℕ)
    (s : RandState K) :
    buildComposite sinK expK d (Profile.mk []) s
      = (Except.ok (List.replicate (44100 * d) (some (0 : K))), s) := rfl

theorem addBuf_replicate_zero (l : List (Option K)) :
    addBuf (List.replicate l.length (some (0 : K))) l = l := by
  induction l with
  | nil => rfl
  | cons x xs ih =>
      show addBuf (some 0 :: List.replicate xs.length (some 0)) (x :: xs) = x :: xs
      show (match some (0 : K), x with
        | some p, some q => some (p + q)
        | _, _ => none) :: addBuf (List.replicate xs.length (some 0)) xs = x :: xs
      rw [ih]
      cases x with
      | none => rfl
      | some q => simp

end GeneratorRunLemmas

section ConvolutionDelta

variable {K : Type} [LinearOrderedField K]

theorem getD_range_map (f : ℕ → K) (n j : ℕ) :
    (((List.range n).map f).getD j 0) = if j < n then f j else 0 := by
  rw [List.getD_eq_getElem?_getD, List.getElem?_map]
  by_cases h : j < n
  · rw [List.getElem?_range h, if_pos h]
    rfl
  · rw [if_neg h, List.getElem?_eq_none (by simpa using Nat.le_of_not_lt h)]
    rfl

theorem getD_replicate (x : K) (n j : ℕ) :
    ((List.replicate n x).getD j 0) = if j < n then x else 0 := by
  rw [List.getD_eq_getElem?_getD, List.getElem?_replicate]
  by_cases h : j < n
  · rw [if_pos h, if_pos h]
    rfl
  · rw [if_neg h, if_neg h]
    rfl

theorem range_map_if_lt (m k : ℕ) (x y : K) :
    (List.range (m + k)).map (fun i => if i < m then x else y)
      = List.replicate m x ++ List.replicate k y := by
  rw [List.range_add, List.map_append, List.map_map]
  congr 1
  · rw [List.map_congr_left (fun i hi => if_pos (List.mem_range.mp hi)),
      List.map_const', List.length_range]
  · rw [List.map_congr_left (g := fun _ => y) (fun i _ => ?_), List.map_const',
      List.length_range]
    show (if m + i < m then x else y) = y
    rw [if_neg (by omega)]

theorem convFull_delta (n : ℕ) (hn : 1 ≤ n) :
    convFull ((List.range n).map (fun i : ℕ => if i = 0 then (-1 : K) else 0))
        (List.replicate n (1 : K))
      = List.replicate n (-1) ++ List.replicate (n - 1) (0 : K) := by
  unfold convFull
  rw [List.length_map, List.length_range, List.length_replicate]
  have hterm : ∀ k, (∑ j ∈ Finset.range (k + 1),
      (((List.range n).map (fun i : ℕ => if i = 0 then (-1 : K) else 0)).getD j 0)
        * ((List.replicate n (1 : K)).getD (k - j) 0))
      = if k < n then (-1 : K) else 0 := by
    intro k
    rw [Finset.sum_eq_single 0]
    · rw [getD_range_map, getD_replicate, if_pos (by omega : (0:ℕ) < n)]
      rw [if_pos rfl, Nat.sub_zero]
      by_cases hk : k < n
      · rw [if_pos hk, if_pos hk, mul_one]
      · rw [if_neg hk, if_neg hk, mul_zero]
    · intro j _ hj0
      rw [getD_range_map]
      by_cases hjn : j < n
      · rw [if_pos hjn, if_neg hj0, zero_mul]
      · rw [if_neg hjn, zero_mul]
    · intro h0
      exact absurd (Finset.mem_range.mpr (Nat.succ_pos k)) h0
  rw [List.map_congr_left (fun k _ => hterm k)]
  rw [show n + n - 1 = n + (n - 1) by omega]
  exact range_map_if_lt n (n - 1) (-1) 0

theorem convSame_delta (n : ℕ) (hn : 1 ≤ n) :
    convSame ((List.range n).map (fun i : ℕ => if i = 0 then (-1 : K) else 0))
        (List.replicate n (1 : K))
      = List.replicate (n - (n - 1) / 2) (-1) ++ List.replicate ((n - 1) / 2) (0 : K) := by
  unfold convSame
  rw [convFull_delta n hn, List.length_map, List.length_range, List.length_replicate,
    min_self, max_self]
  rw [List.drop_append_of_le_length (by rw [List.length_replicate]; omega),
    List.drop_replicate]
  rw [List.take_append_eq_append_take, List.take_replicate, List.take_replicate,
    List.length_replicate]
  congr 1
  · congr 1
    omega
  · congr 1
    omega

end ConvolutionDelta

section RainDeltaPipeline

theorem maxAbs_zsRainDelta : maxAbs zsRainDelta = 1/2 := by
  unfold zsRainDelta
  rw [maxAbs_append, maxAbs_replicate _ _ (by norm_num), maxAbs_replicate_zero]
  norm_num

theorem rain_delta_normRet (n : ℕ) (hn : 1 ≤ n) :
    normRet (1/2 : ℚ) (convSame
        ((List.range n).map (fun i : ℕ => if i = 0 then (-1 : ℚ) else 0))
        (List.replicate n (1 : ℚ)))
      = (List.replicate (n - (n - 1) / 2) (-(1/2) : ℚ)
          ++ List.replicate ((n - 1) / 2) 0).map some := by
  rw [convSame_delta n hn]
  have hmax : maxAbs (List.replicate (n - (n - 1) / 2) (-1 : ℚ)
      ++ List.replicate ((n - 1) / 2) 0) = 1 := by
    rw [maxAbs_append, maxAbs_replicate _ _ (by omega), maxAbs_replicate_zero]
    norm_num
  rw [normRet_of_maxAbs_ne_zero _ (by rw [hmax]; norm_num), hmax]
  rw [List.map_append, List.map_replicate, List.map_replicate,
    List.map_append, List.map_replicate, List.map_replicate]
  norm_num

theorem generate_rain_delta :
    generate_rain (1 : ℚ) 0 1 44100 deltaState
      = (Except.ok (zsRainDelta.map some),
         { deltaState with gi := 44100, pzi := 44100 }) := by
  rw [generate_rain_run]
  have hA : (((List.range (44100 * 1)).map (fun j => deltaState.g (deltaState.gi + j))).map
      (fun x => x * 1)) = (List.range 44100).map (fun i : ℕ => if i = 0 then (-1 : ℚ) else 0) := by
    rw [Nat.mul_one, List.map_map]
    refine List.map_congr_left (fun j _ => ?_)
    show deltaState.g (deltaState.gi + j) * 1 = _
    rw [mul_one]
    show (if 0 + j = 0 then (-1 : ℚ) else 0) = _
    rw [Nat.zero_add]
  have hB : (((List.range (44100 * 1)).map
      (fun j => deltaState.pz (20 + 50 * 0) (deltaState.pzi + j))).map
        (fun k : ℕ => (k : ℚ))) = List.replicate 44100 (1 : ℚ) := by
    rw [Nat.mul_one, List.map_map]
    rw [List.map_congr_left (g := fun _ => (1 : ℚ)) (fun j _ => by norm_num [deltaState, mkState])]
    rw [List.map_const', List.length_range]
  rw [hA, hB, rain_delta_normRet 44100 (by norm_num)]
  have hz : (List.replicate (44100 - (44100 - 1) / 2) (-(1/2) : ℚ)
      ++ List.replicate ((44100 - 1) / 2) 0) = zsRainDelta := by
    unfold zsRainDelta
    norm_num
  rw [hz]
  rfl

theorem buildComposite_rain_delta :
    buildComposite (fun x : ℚ => x) (fun x : ℚ => x) 1 rainOnlyProfile deltaState
      = (Except.ok (zsRainDelta.map some),
         { deltaState with gi := 44100, pzi := 44100 }) := by
  have h1 : buildComposite (fun x : ℚ => x) (fun x : ℚ => x) 1 rainOnlyProfile deltaState
      = ((generate_rain (1 : ℚ) 0 1 >>= fun r =>
          pure (addBuf (List.replicate (44100 * 1) (some (0 : ℚ))) r)) >>= fun a1 =>
            pure a1) deltaState := rfl
  rw [h1]
  have h2 : (generate_rain (1 : ℚ) 0 1 >>= fun r =>
      pure (addBuf (List.replicate (44100 * 1) (some (0 : ℚ))) r)) deltaState
      = (Except.ok (zsRainDelta.map some),
         { deltaState with gi := 44100, pzi := 44100 }) := by
    rw [run_bind_ok generate_rain_delta, run_pure]
    have hlen : (zsRainDelta.map some).length = 44100 * 1 := by
      rw [List.length_map]
      unfold zsRainDelta
      rw [List.length_append, List.length_replicate, List.length_replicate]
    rw [← hlen, addBuf_replicate_zero]
  rw [run_bind_ok h2, run_pure]

theorem finish_zsRainDelta : finishAudio (zsRainDelta.map some) = outRainDelta := by
  rw [finishAudio_map_some (by rw [maxAbs_zsRainDelta]; norm_num), maxAbs_zsRainDelta]
  unfold zsRainDelta outRainDelta
  rw [List.map_append, List.map_replicate, List.map_replicate,
    List.map_append, List.map_replicate, List.map_replicate]
  have hv1 : truncI ((-(1/2) : ℚ) / (1/2) * 32767) = -32767 := by
    rw [show ((-(1/2) : ℚ) / (1/2) * 32767) = (((-32767 : ℤ) : ℚ)) by norm_num,
      truncI_intCast]
  have hv2 : truncI ((0 : ℚ) / (1/2) * 32767) = 0 := by
    rw [show ((0 : ℚ) / (1/2) * 32767) = (((0 : ℤ) : ℚ)) by norm_num, truncI_intCast]
  rw [hv1, hv2]

end RainDeltaPipeline

section MoreHelpers

variable {K : Type} [LinearOrderedField K]

theorem abs_truncI_le [FloorRing K] {x : K} (c : ℕ) (h : |x| ≤ (c : K)) :
    -(c : ℤ) ≤ truncI x ∧ truncI x ≤ c := by
  by_cases h0 : 0 ≤ x
  · unfold truncI
    rw [if_pos h0]
    constructor
    · exact le_trans (by omega : -(c : ℤ) ≤ 0) (Int.floor_nonneg.mpr h0)
    · have hx : x ≤ (c : K) := le_trans (le_abs_self x) h
      have := Int.floor_le_floor hx
      rwa [Int.floor_natCast] at this
  · unfold truncI
    rw [if_neg h0]
    push_neg at h0
    have hnx : 0 ≤ -x := by linarith
    have habs : -x ≤ (c : K) := by
      rw [abs_of_neg h0] at h
      exact h
    constructor
    · have := Int.floor_le_floor habs
      rw [Int.floor_natCast] at this
      omega
    · have := Int.floor_nonneg.mpr hnx
      omega

theorem lookup_cons_ne {β : Type} (k key : String) (v : β) (l : List (String × β))
    (h : k ≠ key) : List.lookup k ((key, v) :: l) = List.lookup k l := by
  simp [List.lookup, beq_eq_false_iff_ne.mpr h]

theorem buildComposite_rainCampfire [FloorRing K] (sinK expK : K → K) (d : ℕ)
    (s : RandState K) :
    buildComposite sinK expK d (rainCampfireProfile : Profile K) s
      = (Except.error (PyErr.keyError "smoke"),
         { s with gi := s.gi + 44100 * d, pzi := s.pzi + 44100 * d }) := rfl

end MoreHelpers

section RealHelpers

theorem sin_ratCast_ne_zero {q : ℚ} (hq : q ≠ 0) : Real.sin ((q : ℝ)) ≠ 0 := by
  intro h
  rcases Real.sin_eq_zero_iff.mp h with ⟨n, hn⟩
  rcases eq_or_ne n 0 with h0 | h0
  · rw [h0] at hn
    simp at hn
    exact hq (by exact_mod_cast hn.symm)
  · have hn0 : ((n : ℝ)) ≠ 0 := Int.cast_ne_zero.mpr h0
    have hpi : Real.pi = ((q : ℝ)) / ((n : ℝ)) := by
      rw [eq_div_iff hn0, mul_comm]
      exact hn
    refine irrational_pi ⟨q / ((n : ℚ)), ?_⟩
    rw [hpi]
    push_cast
    rfl

theorem tvec_one_five : (tvec 1 5 : List ℝ) = [0, 1/4, 1/2, 3/4, 1] := by
  show linspace 0 ((1 : ℕ) : ℝ) (5 * 1) = _
  unfold linspace
  rw [if_neg (by norm_num)]
  show (List.map (fun i : ℕ => (0 : ℝ) + (((1:ℕ):ℝ) - 0) * (i : ℝ) / (((5*1 : ℕ) : ℝ) - 1))
    [0, 1, 2, 3, 4]) = _
  norm_num

end RealHelpers

section StructureHelpers

variable {K : Type} [LinearOrderedField K]

theorem pair_ok_inj {α : Type} {a b : α} {s t : RandState K}
    (h : ((Except.ok a : Except PyErr α), s) = (Except.ok b, t)) : a = b :=
  Except.ok.inj (congrArg Prod.fst h)

theorem finishAudio_length [FloorRing K] (audio : List (Option K)) :
    (finishAudio audio).length = audio.length := by
  unfold finishAudio
  split
  · rw [List.length_map]
  · rw [List.length_map]

theorem birdsSignal_one (sinK expK : K → K) (pv : K) (t : List K) (u : ℕ → K)
    (u0 : ℕ) :
    birdsSignal sinK expK pv t u u0 1
      = t.map (fun tx =>
          sinK (2 * ((np_pi : ℚ) : K) * (1000 + 2000 * u u0 * pv) * tx)
            * expK (-5 * tx / (1/10 + 3/10 * u (u0 + 1))) * (1/5)) := by
  show List.zipWith (fun a b => a + b) (t.map _)
      (birdsSignal sinK expK pv t u (u0 + 2) 0) = _
  rw [show birdsSignal sinK expK pv t u (u0 + 2) 0 = t.map (fun _ => (0 : K)) from rfl]
  exact zipWith_add_map_zero _ _ (by rw [List.length_map])

theorem componentStep_ok_length [FloorRing K] {acc : List (Option K)} {n : ℕ}
    {lk : Option (List (String × K))} {key1 key2 : String}
    {gen : K → K → M K (List (Option K))} {s t : RandState K} {a : List (Option K)}
    (hacc : acc.length = n)
    (hgen : ∀ (x y : K) (s s' : RandState K) (out : List (Option K)),
        gen x y s = (Except.ok out, s') → out.length = n)
    (h : componentStep lk key1 key2 gen acc s = (Except.ok a, t)) :
    a.length = n := by
  cases lk with
  | none =>
      have ha : acc = a := pair_ok_inj h
      rw [← ha]
      exact hacc
  | some params =>
      have h' : ((getParam params key1 >>= fun x =>
          getParam params key2 >>= fun y =>
            gen x y >>= fun r => pure (addBuf acc r)) : M K (List (Option K))) s
          = (Except.ok a, t) := h
      rcases bind_ok_decomp h' with ⟨x, t1, _, h2⟩
      rcases bind_ok_decomp h2 with ⟨y, t2, _, h3⟩
      rcases bind_ok_decomp h3 with ⟨r, t3, hr, h4⟩
      have ha : addBuf acc r = a := pair_ok_inj h4
      rw [← ha, addBuf_length, hacc, hgen x y t2 t3 r hr, min_self]

theorem generate_rain_ok_shape {K : Type} [LinearOrderedField K] {i ds : K}
    {d sr : ℕ} {s : RandState K} {out : List (Option K)}
    (h : (generate_rain i ds d sr s).1 = Except.ok out) :
    ∃ sig : List K, out = normRet (1/2) sig := by
  have h' : ((randn (sr * d) >>= fun gs =>
      poissonV (20 + 50 * ds) (sr * d) >>= fun dp =>
        pure (normRet (1/2) (convSame (gs.map (fun x => x * i))
          (dp.map (fun k : ℕ => (k : K)))))) s).1 = Except.ok out := h
  rw [run_bind_ok (rfl : randn (sr * d) s
      = (Except.ok ((List.range (sr * d)).map (fun j => s.g (s.gi + j))),
         { s with gi := s.gi + sr * d }))] at h'
  rcases bind_pure_ok h' with ⟨dp, hdp⟩
  exact ⟨_, hdp⟩

theorem generate_fire_ok_shape {K : Type} [LinearOrderedField K] {ci em : K}
    {d sr : ℕ} {s : RandState K} {out : List (Option K)}
    (h : (generate_fire ci em d sr s).1 = Except.ok out) :
    ∃ sig : List K, out = normRet (3/5) sig := by
  have h' : ((randn (sr * d) >>= fun gs =>
      poissonV (10 + 20 * em) (sr * d) >>= fun dp =>
        pure (normRet (3/5) (convSame (gs.map (fun x => x * ci))
          (dp.map (fun k : ℕ => (k : K)))))) s).1 = Except.ok out := h
  rw [run_bind_ok (rfl : randn (sr * d) s
      = (Except.ok ((List.range (sr * d)).map (fun j => s.g (s.gi + j))),
         { s with gi := s.gi + sr * d }))] at h'
  rcases bind_pure_ok h' with ⟨dp, hdp⟩
  exact ⟨_, hdp⟩

theorem generate_birds_ok_shape {K : Type} [LinearOrderedField K] [FloorRing K]
    {sinK expK : K → K} {de pv : K} {d sr : ℕ} {s : RandState K}
    {out : List (Option K)}
    (h : (generate_birds sinK expK de pv d sr s).1 = Except.ok out) :
    ∃ sig : List K, out = normRet 1 sig := by
  have h' : ((birdsLoop sinK expK pv (tvec d sr)
      ((truncI (de * (d : K) * 10)).toNat) (List.replicate (sr * d) 0) >>= fun b =>
        pure (normRet 1 b)) s).1 = Except.ok out := h
  exact bind_pure_ok h'

theorem convSame_singleton {K : Type} [LinearOrderedField K] (a b : K) :
    convSame [a] [b] = [a * b] := by
  unfold convSame convFull
  simp [show List.range 1 = [0] from rfl, Finset.sum_range_one,
    List.getElem?_cons_zero]

theorem normRet_single {K : Type} [LinearOrderedField K] (lvl x : K) (hx : x ≠ 0) :
    normRet lvl [x] = [some (lvl * x / |x|)] := by
  have hm : maxAbs [x] = |x| := by
    rw [maxAbs_cons, maxAbs_nil]
    exact max_eq_left (abs_nonneg x)
  rw [normRet_of_maxAbs_ne_zero _ (by rw [hm]; exact abs_ne_zero.mpr hx), hm]
  rfl

end StructureHelpers

section Claims

/-- C1: for a profile with zero recognized components the source does not
skip normalization: the all-zero composite is divided by its zero maximum,
so every sample of the returned integer buffer is the cast of a non-finite
value (modelled none) instead of the all-zero buffer the claim requires.
The buffer length 44100 * duration is as claimed, and no exception is
raised. -/
theorem env_empty_profile_all_nan {K : Type} [LinearOrderedField K] [FloorRing K]
    (sinK expK : K → K) (d : ℕ) (s : RandState K) :
    generate_environment sinK expK d (Profile.mk []) s
      = (Except.ok (List.replicate (44100 * d) none), s) := by
  rw [generate_environment_ok (buildComposite_empty sinK expK d s),
    finishAudio_replicate_zero]

/-- C2: a generator whose accumulated signal is all-zero (here thunder with
int(frequency * duration) = 0 booms) does not return an all-zero finite
buffer: the division by the zero maximum makes every sample non-finite
(modelled none). -/
theorem thunder_zero_booms_nan {K : Type} [LinearOrderedField K] [FloorRing K]
    (frequency boom_duration : K) (d sr : ℕ) (s : RandState K)
    (h : (truncI (frequency * (d : K))).toNat = 0) :
    generate_thunder frequency boom_duration d sr s
      = (Except.ok (List.replicate (sr * d) none), s) :=
  generate_thunder_zero_booms s h

/-- Witness for C2 at frequency 0.1, boom duration 2, duration 1 second,
sample rate 2. -/
theorem thunder_zero_booms_nan_witness :
    (truncI ((1/10 : ℚ) * ((1 : ℕ) : ℚ))).toNat = 0
    ∧ generate_thunder (1/10 : ℚ) 2 1 2 onesState
        = (Except.ok (List.replicate (2 * 1) none), onesState) := by
  refine ⟨by norm_num [truncI], ?_⟩
  exact thunder_zero_booms_nan (1/10 : ℚ) 2 1 2 onesState (by norm_num [truncI])

/-- C5 counterexample: on a profile whose campfire component lacks the
required key smoke, the render does fail with KeyError smoke, but only after
the rain component has been fully synthesized: the gaussian and poisson
counters have advanced by 44100 draws each from the initial zero, refuting
the claim that the failure precedes synthesis of any other component. -/
theorem missing_key_error_after_rain_synthesis :
    (generate_environment (fun x : ℚ => x) (fun x : ℚ => x) 1 rainCampfireProfile
        onesState).1 = Except.error (PyErr.keyError "smoke")
    ∧ (generate_environment (fun x : ℚ => x) (fun x : ℚ => x) 1 rainCampfireProfile
        onesState).2.gi = 44100
    ∧ (generate_environment (fun x : ℚ => x) (fun x : ℚ => x) 1 rainCampfireProfile
        onesState).2.pzi = 44100
    ∧ onesState.gi = 0 ∧ onesState.pzi = 0 := by
  have h := generate_environment_err
    (buildComposite_rainCampfire (fun x : ℚ => x) (fun x : ℚ => x) 1 onesState)
  rw [h]
  exact ⟨rfl, rfl, rfl, rfl, rfl⟩

/-- C5 amended: a missing required key raises KeyError for that key when
routing reaches the component, after the accumulator allocation and after the
components earlier in routing order are synthesized — here rain consumes its
44100 * duration gaussian and poisson draws before the campfire KeyError. -/
theorem missing_key_error_raised_at_component {K : Type} [LinearOrderedField K]
    [FloorRing K] (sinK expK : K → K) (d : ℕ) (s : RandState K) :
    generate_environment sinK expK d (rainCampfireProfile : Profile K) s
      = (Except.error (PyErr.keyError "smoke"),
         { s with gi := s.gi + 44100 * d, pzi := s.pzi + 44100 * d }) :=
  generate_environment_err (buildComposite_rainCampfire sinK expK d s)

/-- C7: generate_environment is a deterministic function of the profile, the
duration and the random state: two runs from componentwise equal random
states produce identical results. -/
theorem env_deterministic_in_seed {K : Type} [LinearOrderedField K] [FloorRing K]
    (sinK expK : K → K) (d : ℕ) (p : Profile K) (s₁ s₂ : RandState K)
    (hg : s₁.g = s₂.g) (hgi : s₁.gi = s₂.gi) (hpz : s₁.pz = s₂.pz)
    (hpzi : s₁.pzi = s₂.pzi) (hu : s₁.u = s₂.u) (hui : s₁.ui = s₂.ui)
    (hri : s₁.ri = s₂.ri) (hrii : s₁.rii = s₂.rii) :
    generate_environment sinK expK d p s₁ = generate_environment sinK expK d p s₂ := by
  have hs : s₁ = s₂ := by
    cases s₁
    cases s₂
    simp_all
  rw [hs]

/-- Witness for C7 at the rain-only profile and the delta random state. -/
theorem env_deterministic_in_seed_witness :
    generate_environment (fun x : ℚ => x) (fun x : ℚ => x) 1 rainOnlyProfile deltaState
      = generate_environment (fun x : ℚ => x) (fun x : ℚ => x) 1 rainOnlyProfile
          deltaState :=
  env_deterministic_in_seed (fun x : ℚ => x) (fun x : ℚ => x) 1 rainOnlyProfile
    deltaState deltaState rfl rfl rfl rfl rfl rfl rfl rfl

/-- C8: adding a component whose key is not one of rain, thunder, birds,
campfire leaves the render of any profile unchanged, with no error, because
the routing only ever consults those four keys. -/
theorem env_ignores_unrecognized_component {K : Type} [LinearOrderedField K]
    [FloorRing K] (sinK expK : K → K) (d : ℕ) (key : String)
    (ps : List (String × K)) (comps : List (String × List (String × K)))
    (s : RandState K) (h1 : key ≠ "rain") (h2 : key ≠ "thunder")
    (h3 : key ≠ "birds") (h4 : key ≠ "campfire") :
    generate_environment sinK expK d (Profile.mk ((key, ps) :: comps)) s
      = generate_environment sinK expK d (Profile.mk comps) s := by
  have hr := lookup_cons_ne "rain" key ps comps (Ne.symm h1)
  have ht := lookup_cons_ne "thunder" key ps comps (Ne.symm h2)
  have hb := lookup_cons_ne "birds" key ps comps (Ne.symm h3)
  have hc := lookup_cons_ne "campfire" key ps comps (Ne.symm h4)
  unfold generate_environment buildComposite
  simp only [hr, ht, hb, hc]

/-- Witness for C8: an added wind component does not change the render of the
empty profile. -/
theorem env_ignores_unrecognized_component_witness :
    generate_environment (fun x : ℚ => x) (fun x : ℚ => x) 1
        (Profile.mk [("wind", [("speed", 1/2)])]) onesState
      = generate_environment (fun x : ℚ => x) (fun x : ℚ => x) 1 (Profile.mk [])
          onesState :=
  env_ignores_unrecognized_component (fun x : ℚ => x) (fun x : ℚ => x) 1 "wind"
    [("speed", 1/2)] [] onesState (by decide) (by decide) (by decide) (by decide)

/-- C3 counterexample: a one-second rain-only render from the random state
whose single nonzero gaussian draw is negative produces a composite that is
not all-zero, yet no sample of the quantized output equals +32767 — the peak
sample is -32767, so the claim that some sample equals the ceiling 32767 is
false on this render. -/
theorem env_quantized_peak_sign_counterexample :
    buildComposite (fun x : ℚ => x) (fun x : ℚ => x) 1 rainOnlyProfile deltaState
        = (Except.ok (zsRainDelta.map some),
           { deltaState with gi := 44100, pzi := 44100 })
    ∧ maxAbs zsRainDelta ≠ 0
    ∧ (generate_environment (fun x : ℚ => x) (fun x : ℚ => x) 1 rainOnlyProfile
        deltaState).1 = Except.ok outRainDelta
    ∧ some (32767 : ℤ) ∉ outRainDelta := by
  refine ⟨buildComposite_rain_delta, by rw [maxAbs_zsRainDelta]; norm_num, ?_, ?_⟩
  · rw [generate_environment_ok buildComposite_rain_delta, finish_zsRainDelta]
  · intro hmem
    unfold outRainDelta at hmem
    rcases List.mem_append.mp hmem with h | h
    · have := (List.mem_replicate.mp h).2
      simp at this
    · have := (List.mem_replicate.mp h).2
      simp at this

/-- C3 amended: for every render whose composite is finite (free of
non-finite samples) and not all-zero, the normalized float buffer has maximum
absolute value exactly 1, the quantized output is exactly the truncated
scaled buffer with every sample in [-32767, 32767], and at least one sample
has absolute value 32767 (value +32767 or -32767). -/
theorem env_finish_peak_normalization {K : Type} [LinearOrderedField K]
    [FloorRing K] (sinK expK : K → K) (d : ℕ) (p : Profile K)
    (s s1 : RandState K) (zs : List K)
    (hb : buildComposite sinK expK d p s = (Except.ok (zs.map some), s1))
    (hm : maxAbs zs ≠ 0) :
    generate_environment sinK expK d p s
        = (Except.ok ((zs.map (fun v => truncI (v / maxAbs zs * 32767))).map some), s1)
      ∧ maxAbs (zs.map (fun v => v / maxAbs zs)) = 1
      ∧ (∀ q ∈ zs.map (fun v => truncI (v / maxAbs zs * 32767)),
          -32767 ≤ q ∧ q ≤ 32767)
      ∧ ∃ q ∈ zs.map (fun v => truncI (v / maxAbs zs * 32767)),
          q = 32767 ∨ q = -32767 := by
  have hpos : 0 < maxAbs zs := lt_of_le_of_ne (maxAbs_nonneg zs) (Ne.symm hm)
  refine ⟨?_, ?_, ?_, ?_⟩
  · rw [generate_environment_ok hb, finishAudio_map_some hm]
  · have hf : (fun v : K => v / maxAbs zs) = fun v => v * (maxAbs zs)⁻¹ :=
      funext fun v => div_eq_mul_inv v _
    rw [hf, maxAbs_map_mul_right, abs_of_pos (inv_pos.mpr hpos), mul_inv_cancel₀ hm]
  · intro q hq
    rcases List.mem_map.mp hq with ⟨v, hv, rfl⟩
    have h1 : |v / maxAbs zs| ≤ 1 := by
      rw [abs_div, abs_of_pos hpos]
      exact (div_le_one hpos).mpr (le_maxAbs hv)
    have h2 : |v / maxAbs zs * 32767| ≤ ((32767 : ℕ) : K) := by
      rw [abs_mul, abs_of_pos (by norm_num : (0 : K) < 32767)]
      calc |v / maxAbs zs| * 32767 ≤ 1 * 32767 :=
            mul_le_mul_of_nonneg_right h1 (by norm_num)
        _ = ((32767 : ℕ) : K) := by norm_num
    have h3 := abs_truncI_le 32767 h2
    exact ⟨by exact_mod_cast h3.1, by exact_mod_cast h3.2⟩
  · rcases maxAbs_attained hm with ⟨v, hv, hval⟩
    rcases (abs_eq (le_of_lt hpos)).mp hval with h | h
    · refine ⟨truncI (v / maxAbs zs * 32767), List.mem_map_of_mem _ hv, Or.inl ?_⟩
      rw [h, div_self hm, one_mul,
        show ((32767 : K)) = (((32767 : ℤ) : K)) by norm_num, truncI_intCast]
    · refine ⟨truncI (v / maxAbs zs * 32767), List.mem_map_of_mem _ hv, Or.inr ?_⟩
      rw [h, neg_div, div_self hm, neg_one_mul,
        show ((-32767 : K)) = (((-32767 : ℤ) : K)) by norm_num, truncI_intCast]

/-- Witness for C3 amended at the concrete rain-only render from the delta
random state. -/
theorem env_finish_peak_normalization_witness :
    buildComposite (fun x : ℚ => x) (fun x : ℚ => x) 1 rainOnlyProfile deltaState
        = (Except.ok (zsRainDelta.map some),
           { deltaState with gi := 44100, pzi := 44100 })
    ∧ maxAbs zsRainDelta ≠ 0
    ∧ maxAbs (zsRainDelta.map (fun v => v / maxAbs zsRainDelta)) = 1 := by
  have h := env_finish_peak_normalization (fun x : ℚ => x) (fun x : ℚ => x) 1
    rainOnlyProfile deltaState _ zsRainDelta buildComposite_rain_delta
    (by rw [maxAbs_zsRainDelta]; norm_num)
  exact ⟨buildComposite_rain_delta, by rw [maxAbs_zsRainDelta]; norm_num, h.2.1⟩

/-- C4 counterexample: generate_thunder with frequency 1, boom duration 2 and
duration 1 second computes int(frequency * duration) = 1 boom of
int(2 * 44100) = 88200 samples, longer than the 44100-sample buffer, so
random.randint is called on the empty range [0, -44100] and raises
ValueError: the generator returns no buffer at all, refuting the claim for
this positive duration and in-schema ParameterSet. -/
theorem thunder_boom_overrun_valueError :
    (generate_thunder (1 : ℚ) 2 1 44100 onesState).1 = Except.error PyErr.valueError := by
  have hb : ((truncI ((1 : ℚ) * ((1 : ℕ) : ℚ))).toNat) = 1 := by
    rw [show ((1 : ℚ) * ((1 : ℕ) : ℚ)) = (((1 : ℤ) : ℚ)) by norm_num, truncI_intCast]
    rfl
  have hl : ((truncI ((2 : ℚ) * ((44100 : ℕ) : ℚ))).toNat) = 88200 := by
    rw [show ((2 : ℚ) * ((44100 : ℕ) : ℚ)) = (((88200 : ℤ) : ℚ)) by norm_num,
      truncI_intCast]
    rfl
  show ((thunderLoop (44100 * 1) ((truncI ((2 : ℚ) * ((44100 : ℕ) : ℚ))).toNat)
      ((truncI ((1 : ℚ) * ((1 : ℕ) : ℚ))).toNat) (List.replicate (44100 * 1) 0)
        >>= fun th => pure (normRet (7/10) th)) onesState).1 = _
  rw [hb, hl]
  have herr := thunderLoop_err_run (44100 * 1) 88200 0
    (List.replicate (44100 * 1) (0 : ℚ)) onesState (by norm_num)
  norm_num at herr
  rw [run_bind_err herr]

/-- C4 amended: every generator invocation that completes returns a buffer of
length exactly sample_rate * duration (thunder completes whenever the boom
count is zero or the boom fits in the buffer; rain, birds and fire always
complete), and on every successful render the composite accumulator and the
final quantized output of generate_environment both have length
44100 * duration. -/
theorem generator_buffer_lengths {K : Type} [LinearOrderedField K] [FloorRing K]
    (sinK expK : K → K) :
    (∀ (i ds : K) (d sr : ℕ) (s : RandState K) (out : List (Option K))
        (s1 : RandState K), generate_rain i ds d sr s = (Except.ok out, s1) →
          out.length = sr * d)
    ∧ (∀ (f bd : K) (d sr : ℕ) (s : RandState K) (out : List (Option K))
        (s1 : RandState K), generate_thunder f bd d sr s = (Except.ok out, s1) →
          out.length = sr * d)
    ∧ (∀ (f bd : K) (d sr : ℕ) (s : RandState K),
        ((truncI (f * (d : K))).toNat = 0
          ∨ (truncI (bd * (sr : K))).toNat ≤ sr * d) →
          ∃ out s1, generate_thunder f bd d sr s = (Except.ok out, s1)
            ∧ out.length = sr * d)
    ∧ (∀ (de pv : K) (d sr : ℕ) (s : RandState K) (out : List (Option K))
        (s1 : RandState K), generate_birds sinK expK de pv d sr s = (Except.ok out, s1) →
          out.length = sr * d)
    ∧ (∀ (ci em : K) (d sr : ℕ) (s : RandState K) (out : List (Option K))
        (s1 : RandState K), generate_fire ci em d sr s = (Except.ok out, s1) →
          out.length = sr * d)
    ∧ (∀ (d : ℕ) (p : Profile K) (s s1 : RandState K) (comp : List (Option K)),
        buildComposite sinK expK d p s = (Except.ok comp, s1) →
          comp.length = 44100 * d
          ∧ generate_environment sinK expK d p s = (Except.ok (finishAudio comp), s1)
          ∧ (finishAudio comp).length = 44100 * d) := by
  have hrain : ∀ (i ds : K) (d sr : ℕ) (s : RandState K) (out : List (Option K))
      (s1 : RandState K), generate_rain i ds d sr s = (Except.ok out, s1) →
        out.length = sr * d := by
    intro i ds d sr s out s1 h
    rw [generate_rain_run] at h
    have ho := pair_ok_inj h
    rw [← ho, normRet_length]
    refine convSame_length ?_ ?_
    · rw [List.length_map, List.length_map, List.length_range]
    · rw [List.length_map, List.length_map, List.length_range]
  have hthunder : ∀ (f bd : K) (d sr : ℕ) (s : RandState K) (out : List (Option K))
      (s1 : RandState K), generate_thunder f bd d sr s = (Except.ok out, s1) →
        out.length = sr * d := by
    intro f bd d sr s out s1 h
    have h' : ((thunderLoop (sr * d) ((truncI (bd * (sr : K))).toNat)
        ((truncI (f * (d : K))).toNat) (List.replicate (sr * d) 0) >>= fun th =>
          pure (normRet (7/10) th)) s) = (Except.ok out, s1) := h
    rcases bind_ok_decomp h' with ⟨th, t1, hloop, hpure⟩
    have ho := pair_ok_inj hpure
    rw [← ho, normRet_length]
    exact thunderLoop_length (sr * d) _ _ _ _ _ _ hloop (List.length_replicate _ _)
  have hbirds : ∀ (de pv : K) (d sr : ℕ) (s : RandState K) (out : List (Option K))
      (s1 : RandState K), generate_birds sinK expK de pv d sr s = (Except.ok out, s1) →
        out.length = sr * d := by
    intro de pv d sr s out s1 h
    rw [generate_birds_run] at h
    have ho := pair_ok_inj h
    rw [← ho, normRet_length, birdsSignal_length, tvec_length]
  have hfire : ∀ (ci em : K) (d sr : ℕ) (s : RandState K) (out : List (Option K))
      (s1 : RandState K), generate_fire ci em d sr s = (Except.ok out, s1) →
        out.length = sr * d := by
    intro ci em d sr s out s1 h
    rw [generate_fire_run] at h
    have ho := pair_ok_inj h
    rw [← ho, normRet_length]
    refine convSame_length ?_ ?_
    · rw [List.length_map, List.length_map, List.length_range]
    · rw [List.length_map, List.length_map, List.length_range]
  refine ⟨hrain, hthunder, ?_, hbirds, hfire, ?_⟩
  · intro f bd d sr s hcond
    rcases hcond with h0 | hfit
    · exact ⟨List.replicate (sr * d) none, s, generate_thunder_zero_booms s h0,
        List.length_replicate _ _⟩
    · rcases thunderLoop_ok_run (sr * d) ((truncI (bd * (sr : K))).toNat) hfit
        ((truncI (f * (d : K))).toNat) (List.replicate (sr * d) 0) s
        (List.length_replicate _ _) with ⟨th, s', hloop, hlen⟩
      refine ⟨normRet (7/10) th, s', ?_, by rw [normRet_length, hlen]⟩
      show (thunderLoop (sr * d) ((truncI (bd * (sr : K))).toNat)
          ((truncI (f * (d : K))).toNat) (List.replicate (sr * d) 0) >>= fun th =>
            pure (normRet (7/10) th)) s = _
      rw [run_bind_ok hloop, run_pure]
  · intro d p s s1 comp h
    have h' : ((componentStep (p.components.lookup "rain") "intensity" "drop_size"
        (fun x y => generate_rain x y d) (List.replicate (44100 * d) (some (0 : K)))
          >>= fun a1 =>
        componentStep (p.components.lookup "thunder") "frequency" "boom_duration"
          (fun x y => generate_thunder x y d) a1 >>= fun a2 =>
        componentStep (p.components.lookup "birds") "density" "pitch_variance"
          (fun x y => generate_birds sinK expK x y d) a2 >>= fun a3 =>
        componentStep (p.components.lookup "campfire") "crackle_intensity" "smoke"
          (fun x y => generate_fire x y d) a3 >>= fun a4 =>
        pure a4) : M K (List (Option K))) s = (Except.ok comp, s1) := h
    rcases bind_ok_decomp h' with ⟨a1, t1, h1, hr1⟩
    have ha1 : a1.length = 44100 * d :=
      componentStep_ok_length (List.length_replicate _ _)
        (fun x y s s' out hgen => hrain x y d 44100 s out s' hgen) h1
    rcases bind_ok_decomp hr1 with ⟨a2, t2, h2, hr2⟩
    have ha2 : a2.length = 44100 * d :=
      componentStep_ok_length ha1
        (fun x y s s' out hgen => hthunder x y d 44100 s out s' hgen) h2
    rcases bind_ok_decomp hr2 with ⟨a3, t3, h3, hr3⟩
    have ha3 : a3.length = 44100 * d :=
      componentStep_ok_length ha2
        (fun x y s s' out hgen => hbirds x y d 44100 s out s' hgen) h3
    rcases bind_ok_decomp hr3 with ⟨a4, t4, h4, hr4⟩
    have ha4 : a4.length = 44100 * d :=
      componentStep_ok_length ha3
        (fun x y s s' out hgen => hfire x y d 44100 s out s' hgen) h4
    have hc : a4 = comp := pair_ok_inj hr4
    have hcomp : comp.length = 44100 * d := hc ▸ ha4
    exact ⟨hcomp, generate_environment_ok h,
      by rw [finishAudio_length, hcomp]⟩

/-- Witness for C4 amended: the conclusions at concrete small renders — rain,
birds and fire at sample rate 2 and duration 1, thunder at zero booms, and
the compositor at the empty profile. -/
theorem generator_buffer_lengths_witness :
    (normRet (1/2 : ℚ) (convSame
        (((List.range (2 * 1)).map (fun j => onesState.g (onesState.gi + j))).map
          (fun x => x * 1))
        (((List.range (2 * 1)).map
          (fun j => onesState.pz (20 + 50 * 0) (onesState.pzi + j))).map
            (fun k : ℕ => (k : ℚ))))).length = 2 * 1
    ∧ (∃ out s1, generate_thunder (1/10 : ℚ) 2 1 2 onesState = (Except.ok out, s1)
        ∧ out.length = 2 * 1)
    ∧ (normRet (1 : ℚ) (birdsSignal (fun _ => 1) (fun _ => 1) 1 (tvec 1 2)
        onesState.u onesState.ui
          ((truncI ((1/10 : ℚ) * ((1 : ℕ) : ℚ) * 10)).toNat))).length = 2 * 1
    ∧ (normRet (3/5 : ℚ) (convSame
        (((List.range (2 * 1)).map (fun j => onesState.g (onesState.gi + j))).map
          (fun x => x * 1))
        (((List.range (2 * 1)).map
          (fun j => onesState.pz (10 + 20 * 0) (onesState.pzi + j))).map
            (fun k : ℕ => (k : ℚ))))).length = 2 * 1
    ∧ (List.replicate (44100 * 1) (some (0 : ℚ))).length = 44100 * 1
    ∧ generate_environment (fun x : ℚ => x) (fun x : ℚ => x) 1 (Profile.mk [])
        onesState
        = (Except.ok (finishAudio (List.replicate (44100 * 1) (some (0 : ℚ)))),
           onesState)
    ∧ (finishAudio (List.replicate (44100 * 1) (some (0 : ℚ)))).length = 44100 * 1 := by
  refine ⟨?_, ?_, ?_, ?_, ?_⟩
  · exact (generator_buffer_lengths (fun x : ℚ => x) (fun x : ℚ => x)).1 1 0 1 2
      onesState _ _ (generate_rain_run 1 0 1 2 onesState)
  · exact (generator_buffer_lengths (fun x : ℚ => x) (fun x : ℚ => x)).2.2.1
      (1/10) 2 1 2 onesState (Or.inl (by norm_num [truncI]))
  · exact (generator_buffer_lengths (fun _ : ℚ => 1) (fun _ : ℚ => 1)).2.2.2.1
      (1/10) 1 1 2 onesState _ _ (generate_birds_run _ _ (1/10) 1 1 2 onesState)
  · exact (generator_buffer_lengths (fun x : ℚ => x) (fun x : ℚ => x)).2.2.2.2.1
      1 0 1 2 onesState _ _ (generate_fire_run 1 0 1 2 onesState)
  · exact (generator_buffer_lengths (fun x : ℚ => x) (fun x : ℚ => x)).2.2.2.2.2
      1 (Profile.mk []) onesState onesState _
      (buildComposite_empty (fun x : ℚ => x) (fun x : ℚ => x) 1 onesState)

/-- C9: generate_fire and generate_rain are both instances of one template —
gaussian noise scaled by an amplitude, convolved in mode same with a poisson
pattern whose mean is base + slope * size, then normalized to a level — fire
at level 0.6 with mean 10 + 20 * embers, rain at level 0.5 with mean
20 + 50 * drop_size. -/
theorem fire_rain_structurally_identical {K : Type} [LinearOrderedField K]
    (ci em i ds : K) (d sr : ℕ) (s : RandState K) :
    generate_fire ci em d sr s = poissonConvGenerator (3/5) 10 20 ci em d sr s
    ∧ generate_rain i ds d sr s = poissonConvGenerator (1/2) 20 50 i ds d sr s :=
  ⟨rfl, rfl⟩

/-- C10: whenever a generator returns a buffer of finite samples (which
happens exactly when its pre-normalization signal is not all-zero), the
maximum absolute value of the returned samples is the generator reference
level: 0.5 for rain, 0.7 for thunder, 1 for birds (full scale), 0.6 for
fire. -/
theorem generator_reference_peaks {K : Type} [LinearOrderedField K] [FloorRing K]
    (sinK expK : K → K) :
    (∀ (i ds : K) (d sr : ℕ) (s : RandState K) (out : List (Option K)) (zs : List K),
        (generate_rain i ds d sr s).1 = Except.ok out → out = zs.map some →
          zs ≠ [] → maxAbs zs = 1/2)
    ∧ (∀ (f bd : K) (d sr : ℕ) (s : RandState K) (out : List (Option K)) (zs : List K),
        (generate_thunder f bd d sr s).1 = Except.ok out → out = zs.map some →
          zs ≠ [] → maxAbs zs = 7/10)
    ∧ (∀ (de pv : K) (d sr : ℕ) (s : RandState K) (out : List (Option K)) (zs : List K),
        (generate_birds sinK expK de pv d sr s).1 = Except.ok out →
          out = zs.map some → zs ≠ [] → maxAbs zs = 1)
    ∧ (∀ (ci em : K) (d sr : ℕ) (s : RandState K) (out : List (Option K)) (zs : List K),
        (generate_fire ci em d sr s).1 = Except.ok out → out = zs.map some →
          zs ≠ [] → maxAbs zs = 3/5) := by
  refine ⟨?_, ?_, ?_, ?_⟩
  · intro i ds d sr s out zs h hz hne
    rcases generate_rain_ok_shape h with ⟨sig, hsig⟩
    rw [hsig] at hz
    exact normRet_allSome hz hne (by norm_num)
  · intro f bd d sr s out zs h hz hne
    rcases generate_thunder_ok_shape h with ⟨sig, hsig⟩
    rw [hsig] at hz
    exact normRet_allSome hz hne (by norm_num)
  · intro de pv d sr s out zs h hz hne
    rcases generate_birds_ok_shape h with ⟨sig, hsig⟩
    rw [hsig] at hz
    exact normRet_allSome hz hne (by norm_num)
  · intro ci em d sr s out zs h hz hne
    rcases generate_fire_ok_shape h with ⟨sig, hsig⟩
    rw [hsig] at hz
    exact normRet_allSome hz hne (by norm_num)

/-- Witness for C10 at concrete one-sample renders from the all-ones random
state: the rain output peaks at 0.5, the thunder output at 0.7, the birds
output at 1 and the fire output at 0.6. -/
theorem generator_reference_peaks_witness :
    maxAbs [(1/2 : ℚ)] = 1/2
    ∧ maxAbs [(7/10 : ℚ)] = 7/10
    ∧ maxAbs [(1 : ℚ)] = 1
    ∧ maxAbs [(3/5 : ℚ)] = 3/5 := by
  have hone : ((truncI ((1 : ℚ) * ((1 : ℕ) : ℚ))).toNat) = 1 := by
    rw [show ((1 : ℚ) * ((1 : ℕ) : ℚ)) = (((1 : ℤ) : ℚ)) by norm_num, truncI_intCast]
    rfl
  have hrain : (generate_rain (1 : ℚ) 0 1 1 onesState).1
      = Except.ok ([(1/2 : ℚ)].map some) := by
    rw [generate_rain_run]
    rw [show (((List.range (1 * 1)).map (fun j => onesState.g (onesState.gi + j))).map
        (fun x => x * 1)) = [(1 : ℚ) * 1] from rfl]
    rw [show (((List.range (1 * 1)).map
        (fun j => onesState.pz (20 + 50 * 0) (onesState.pzi + j))).map
          (fun k : ℕ => (k : ℚ))) = [((1 : ℕ) : ℚ)] from rfl]
    rw [convSame_singleton, show ((1 : ℚ) * 1 * ((1 : ℕ) : ℚ)) = 1 by norm_num]
    rw [normRet_single _ _ one_ne_zero]
    norm_num
  have hfire : (generate_fire (1 : ℚ) 0 1 1 onesState).1
      = Except.ok ([(3/5 : ℚ)].map some) := by
    rw [generate_fire_run]
    rw [show (((List.range (1 * 1)).map (fun j => onesState.g (onesState.gi + j))).map
        (fun x => x * 1)) = [(1 : ℚ) * 1] from rfl]
    rw [show (((List.range (1 * 1)).map
        (fun j => onesState.pz (10 + 20 * 0) (onesState.pzi + j))).map
          (fun k : ℕ => (k : ℚ))) = [((1 : ℕ) : ℚ)] from rfl]
    rw [convSame_singleton, show ((1 : ℚ) * 1 * ((1 : ℕ) : ℚ)) = 1 by norm_num]
    rw [normRet_single _ _ one_ne_zero]
    norm_num
  have hloop := thunderLoop_succ_run (1 * 1) 1 0 (List.replicate (1 * 1) (0 : ℚ))
    onesState (by norm_num)
  have hrunth : thunderLoop (1 * 1) 1 (0 + 1) (List.replicate (1 * 1) (0 : ℚ)) onesState
      = (Except.ok [(1 : ℚ) * 1 + 0],
         { onesState with rii := onesState.rii + 1, gi := onesState.gi + 1 }) := by
    rw [hloop]
    rw [show (addSlice (List.replicate (1 * 1) (0 : ℚ))
        (0 + (onesState.ri onesState.rii : ℤ) % (((1 * 1 : ℕ) : ℤ) - ((1 : ℕ) : ℤ) - 0 + 1)).toNat
        (List.zipWith (fun x y => x * y)
          ((List.range 1).map (fun i => onesState.g (onesState.gi + i)))
          (linspace 1 0 1))) = [(1 : ℚ) * 1 + 0] from rfl]
    exact thunderLoop_zero_run _ _ _ _
  have hth : (generate_thunder (1 : ℚ) 1 1 1 onesState).1
      = Except.ok ([(7/10 : ℚ)].map some) := by
    show ((thunderLoop (1 * 1) ((truncI ((1 : ℚ) * ((1 : ℕ) : ℚ))).toNat)
        ((truncI ((1 : ℚ) * ((1 : ℕ) : ℚ))).toNat) (List.replicate (1 * 1) 0)
          >>= fun th => pure (normRet (7/10) th)) onesState).1 = _
    rw [hone]
    show ((thunderLoop (1 * 1) 1 (0 + 1) (List.replicate (1 * 1) 0)
        >>= fun th => pure (normRet (7/10) th)) onesState).1 = _
    rw [run_bind_ok hrunth, run_pure]
    show Except.ok (normRet (7/10) [(1 : ℚ) * 1 + 0]) = _
    rw [show ((1 : ℚ) * 1 + 0) = 1 by norm_num]
    rw [normRet_single _ _ one_ne_zero]
    norm_num
  have hnc : ((truncI ((1/10 : ℚ) * ((1 : ℕ) : ℚ) * 10)).toNat) = 1 := by
    rw [show ((1/10 : ℚ) * ((1 : ℕ) : ℚ) * 10) = (((1 : ℤ) : ℚ)) by norm_num,
      truncI_intCast]
    rfl
  have hbd := generate_birds_run (fun _ : ℚ => 1) (fun _ : ℚ => 1) (1/10) 1 1 1 onesState
  rw [hnc, birdsSignal_one] at hbd
  have hbirds : (generate_birds (fun _ : ℚ => 1) (fun _ : ℚ => 1) (1/10) 1 1 1
      onesState).1 = Except.ok ([(1 : ℚ)].map some) := by
    rw [hbd]
    show Except.ok (normRet 1 ((tvec 1 1 : List ℚ).map _)) = _
    rw [show ((tvec 1 1 : List ℚ).map (fun tx =>
        (fun _ : ℚ => (1 : ℚ)) (2 * ((np_pi : ℚ) : ℚ)
            * (1000 + 2000 * onesState.u onesState.ui * 1) * tx)
          * (fun _ : ℚ => (1 : ℚ)) (-5 * tx / (1/10 + 3/10 * onesState.u (onesState.ui + 1)))
          * (1/5))) = [(1 : ℚ) * 1 * (1/5)] from rfl]
    rw [show ((1 : ℚ) * 1 * (1/5)) = 1/5 by norm_num]
    rw [normRet_single _ _ (by norm_num : (1/5 : ℚ) ≠ 0)]
    rw [show |(1/5 : ℚ)| = 1/5 from abs_of_pos (by norm_num)]
    norm_num
  refine ⟨?_, ?_, ?_, ?_⟩
  · exact (generator_reference_peaks (fun x : ℚ => x) (fun x : ℚ => x)).1 1 0 1 1
      onesState ([(1/2 : ℚ)].map some) [(1/2 : ℚ)] hrain rfl (by simp)
  · exact (generator_reference_peaks (fun x : ℚ => x) (fun x : ℚ => x)).2.1 1 1 1 1
      onesState ([(7/10 : ℚ)].map some) [(7/10 : ℚ)] hth rfl (by simp)
  · exact (generator_reference_peaks (fun _ : ℚ => 1) (fun _ : ℚ => 1)).2.2.1 (1/10) 1
      1 1 onesState ([(1 : ℚ)].map some) [(1 : ℚ)] hbirds rfl (by simp)
  · exact (generator_reference_peaks (fun x : ℚ => x) (fun x : ℚ => x)).2.2.2 1 0 1 1
      onesState ([(3/5 : ℚ)].map some) [(3/5 : ℚ)] hfire rfl (by simp)

/-- C6 amended: generate_birds sums int(density * duration * 10) chirps, each
evaluated over the entire time vector — a sine at the drawn pitch damped by
an exponential envelope anchored at the buffer start — then normalizes the
sum to peak 1.  No start offsets are drawn: the final random state advances
only the uniform counter, by two draws per call. -/
theorem birds_full_length_chirps_no_offsets {K : Type} [LinearOrderedField K]
    [FloorRing K] (sinK expK : K → K) (density pv : K) (d sr : ℕ)
    (s : RandState K) :
    generate_birds sinK expK density pv d sr s
      = (Except.ok (normRet 1 (birdsSignal sinK expK pv (tvec d sr) s.u s.ui
            ((truncI (density * (d : K) * 10)).toNat))),
         { s with ui := s.ui + 2 * (truncI (density * (d : K) * 10)).toNat }) :=
  generate_birds_run sinK expK density pv d sr s

/-- C6 counterexample: a one-second five-sample render with a single chirp
from the zero uniform stream is nonzero both near the start and at the final
sample, three quarters of a second apart, so no window of the maximal chirp
duration 0.4 seconds can contain all nonzero samples: the chirp is not a
burst placed at a random offset with an envelope local to its own short
duration. -/
theorem birds_chirps_not_locally_supported :
    (generate_birds Real.sin Real.exp (1/10) 1 1 5 realState).1
      = Except.ok (normRet 1 ((tvec 1 5).map (fun tx : ℝ =>
          Real.sin (2 * ((np_pi : ℚ) : ℝ)
              * (1000 + 2000 * realState.u realState.ui * 1) * tx)
            * Real.exp (-5 * tx / (1/10 + 3/10 * realState.u (realState.ui + 1)))
            * (1/5))))
    ∧ ¬ birdsLocalSupport (tvec 1 5) (normRet 1 ((tvec 1 5).map (fun tx : ℝ =>
          Real.sin (2 * ((np_pi : ℚ) : ℝ)
              * (1000 + 2000 * realState.u realState.ui * 1) * tx)
            * Real.exp (-5 * tx / (1/10 + 3/10 * realState.u (realState.ui + 1)))
            * (1/5)))) := by
  have hnc : ((truncI ((1/10 : ℝ) * ((1 : ℕ) : ℝ) * 10)).toNat) = 1 := by
    rw [show ((1/10 : ℝ) * ((1 : ℕ) : ℝ) * 10) = (((1 : ℤ) : ℝ)) by push_cast; ring,
      truncI_intCast]
    rfl
  have hrun := generate_birds_run Real.sin Real.exp (1/10 : ℝ) 1 1 5 realState
  rw [hnc, birdsSignal_one] at hrun
  constructor
  · rw [hrun]
  · rintro ⟨t0, hwin⟩
    set F : ℝ → ℝ := fun tx =>
      Real.sin (2 * ((np_pi : ℚ) : ℝ)
          * (1000 + 2000 * realState.u realState.ui * 1) * tx)
        * Real.exp (-5 * tx / (1/10 + 3/10 * realState.u (realState.ui + 1)))
        * (1/5) with hF
    have hu : ∀ k : ℕ, realState.u k = 0 := fun k => rfl
    have hF14 : F (1/4 : ℝ) ≠ 0 := by
      show Real.sin (2 * ((np_pi : ℚ) : ℝ)
          * (1000 + 2000 * realState.u realState.ui * 1) * (1/4))
        * Real.exp (-5 * (1/4) / (1/10 + 3/10 * realState.u (realState.ui + 1)))
        * (1/5) ≠ 0
      rw [show (2 * ((np_pi : ℚ) : ℝ)
          * (1000 + 2000 * realState.u realState.ui * 1) * (1/4 : ℝ))
          = ((500 * np_pi : ℚ) : ℝ) by rw [hu]; push_cast; ring]
      exact mul_ne_zero (mul_ne_zero
        (sin_ratCast_ne_zero (by norm_num [np_pi])) (Real.exp_ne_zero _))
        (by norm_num)
    have hF1 : F (1 : ℝ) ≠ 0 := by
      show Real.sin (2 * ((np_pi : ℚ) : ℝ)
          * (1000 + 2000 * realState.u realState.ui * 1) * 1)
        * Real.exp (-5 * 1 / (1/10 + 3/10 * realState.u (realState.ui + 1)))
        * (1/5) ≠ 0
      rw [show (2 * ((np_pi : ℚ) : ℝ)
          * (1000 + 2000 * realState.u realState.ui * 1) * (1 : ℝ))
          = ((2000 * np_pi : ℚ) : ℝ) by rw [hu]; push_cast; ring]
      exact mul_ne_zero (mul_ne_zero
        (sin_ratCast_ne_zero (by norm_num [np_pi])) (Real.exp_ne_zero _))
        (by norm_num)
    have hmap : (tvec 1 5 : List ℝ).map F = [F 0, F (1/4), F (1/2), F (3/4), F 1] := by
      rw [tvec_one_five]
      rfl
    have hmem : F (1/4) ∈ [F 0, F (1/4), F (1/2), F (3/4), F 1] := by simp
    have hm : maxAbs [F 0, F (1/4), F (1/2), F (3/4), F 1] ≠ 0 :=
      ne_of_gt (lt_of_lt_of_le (abs_pos.mpr hF14) (le_maxAbs hmem))
    have hout : normRet 1 ((tvec 1 5).map F)
        = [F 0, F (1/4), F (1/2), F (3/4), F 1].map
            (fun x => some (1 * x / maxAbs [F 0, F (1/4), F (1/2), F (3/4), F 1])) := by
      rw [hmap, normRet_of_maxAbs_ne_zero _ hm]
    have hlen : (normRet 1 ((tvec 1 5).map F)).length = 5 := by
      rw [hout]
      rfl
    have hgd1 : (normRet 1 ((tvec 1 5).map F)).getD 1 none
        = some (1 * F (1/4) / maxAbs [F 0, F (1/4), F (1/2), F (3/4), F 1]) := by
      rw [hout]
      rfl
    have hgd4 : (normRet 1 ((tvec 1 5).map F)).getD 4 none
        = some (1 * F 1 / maxAbs [F 0, F (1/4), F (1/2), F (3/4), F 1]) := by
      rw [hout]
      rfl
    have h1 := hwin 1 (by rw [hlen]; norm_num) (by
      rw [hgd1]
      intro hc
      have hcv := Option.some.inj hc
      rw [one_mul] at hcv
      rcases div_eq_zero_iff.mp hcv with h | h
      · exact hF14 h
      · exact hm h)
    have h4 := hwin 4 (by rw [hlen]; norm_num) (by
      rw [hgd4]
      intro hc
      have hcv := Option.some.inj hc
      rw [one_mul] at hcv
      rcases div_eq_zero_iff.mp hcv with h | h
      · exact hF1 h
      · exact hm h)
    have ht1 : (tvec 1 5 : List ℝ).getD 1 0 = 1/4 := by
      rw [tvec_one_five]
      rfl
    have ht4 : (tvec 1 5 : List ℝ).getD 4 0 = 1 := by
      rw [tvec_one_five]
      rfl
    rw [ht1] at h1
    rw [ht4] at h4
    linarith [h1.1, h4.2]

end Claims

end NatureSound
